import Mathlib

/-!
Verification development for the `apscript` interpreter (an AP-Pseudocode
style teaching language written in Rust).  The development shallowly embeds
the two components the checked claims talk about:

* the hand written lexer (`src/lexer.rs`): byte stream to token stream with
  spans and a newline-before flag;
* the tree walking evaluator (`aps_core/src/vm.rs`) together with the
  standard library built-ins (`aps_core/src/stdlib.rs`).

Machine integers are modelled as `Nat`/`Int` with explicit wrap-arounds where
the Rust code can overflow (release-profile semantics: arithmetic wraps,
`RefCell`/`GcCell` borrow violations still abort).  The `f32` numbers of the
value model are represented by `ℚ`; none of the properties below depends on
floating point rounding, infinities or NaN.
-/

namespace Aps

/-! ## Spans (`src/ast.rs`)

`Span` is a half open pair of byte offsets (`start`, `end` in Rust; the second
field is called `stop` here because `end` is reserved in Lean). -/

structure Span where
  start : Nat
  stop : Nat
deriving DecidableEq, Repr

/-! ## Lexer (`src/lexer.rs`)

The buffer is the byte list of the source (`&[u8]` in Rust, bytes as `Nat`).
Each Rust scanning loop (`loop { self.index += 1; ... }`) becomes a recursive
function from the current index to the index where the loop leaves `self.index`.
-/

inductive Keyword where
  | NOT | AND | OR | IF | ELSE | REPEAT | TIMES | UNTIL | MOD
  | TRUE | FALSE | RETURN | FOR | EACH | IN
deriving DecidableEq, Repr

inductive Token where
  | EOF
  | Identifier
  | IntegerLiteral
  | BinaryLiteral
  | HexLiteral
  | FloatLiteral
  | StringLiteral
  | InvalidStringLiteral
  | ThinArrow
  | LeftParen
  | RightParen
  | LeftBrack
  | RightBrack
  | LeftBrace
  | RightBrace
  | Comma
  | Add
  | Sub
  | Mul
  | Div
  | Equal
  | NotEqual
  | Greater
  | GreaterEqual
  | Less
  | LessEqual
  | Keyword (k : Keyword)
deriving DecidableEq, Repr

/-- The `KEYWORDS` perfect hash map: keyword lookup over the identifier
slice, with both the upper and the lower case spelling recognized. -/
def keywordOf (s : String) : Option Token :=
  if s = "NOT" ∨ s = "not" then some (.Keyword .NOT)
  else if s = "AND" ∨ s = "and" then some (.Keyword .AND)
  else if s = "OR" ∨ s = "or" then some (.Keyword .OR)
  else if s = "IF" ∨ s = "if" then some (.Keyword .IF)
  else if s = "ELSE" ∨ s = "else" then some (.Keyword .ELSE)
  else if s = "REPEAT" ∨ s = "repeat" then some (.Keyword .REPEAT)
  else if s = "TIMES" ∨ s = "times" then some (.Keyword .TIMES)
  else if s = "UNTIL" ∨ s = "until" then some (.Keyword .UNTIL)
  else if s = "TRUE" ∨ s = "true" then some (.Keyword .TRUE)
  else if s = "FALSE" ∨ s = "false" then some (.Keyword .FALSE)
  else if s = "RETURN" ∨ s = "return" then some (.Keyword .RETURN)
  else if s = "FOR" ∨ s = "for" then some (.Keyword .FOR)
  else if s = "EACH" ∨ s = "each" then some (.Keyword .EACH)
  else if s = "IN" ∨ s = "in" then some (.Keyword .IN)
  else none

/-- Lexer state: `start`/`index` delimit the span of the token most recently
deposited in `token`; `has_newline_before` is re-computed by each `next()`. -/
structure Lexer where
  start : Nat
  index : Nat
  buffer : List Nat
  token : Token
  hasNewlineBefore : Bool
deriving DecidableEq, Repr

namespace Lexer

/-- `Lexer::new`. -/
def new (buffer : List Nat) : Lexer :=
  { start := 0, index := 0, buffer := buffer, token := .EOF, hasNewlineBefore := false }

/-- `Lexer::span`. -/
def span (l : Lexer) : Span := ⟨l.start, l.index⟩

end Lexer

/-- Byte classes used by the scanners. -/
def isDigitB (b : Nat) : Bool := 48 ≤ b ∧ b ≤ 57

def isIdentStartB (b : Nat) : Bool :=
  (97 ≤ b ∧ b ≤ 122) ∨ (65 ≤ b ∧ b ≤ 90) ∨ b = 95

def isIdentContB (b : Nat) : Bool :=
  isIdentStartB b ∨ isDigitB b

def isHexDigitB (b : Nat) : Bool :=
  isDigitB b ∨ (97 ≤ b ∧ b ≤ 102) ∨ (65 ≤ b ∧ b ≤ 70)

def isBinDigitB (b : Nat) : Bool := b = 48 ∨ b = 49

/-- space or tab -/
def isBlankB (b : Nat) : Bool := b = 32 ∨ b = 9

/-- carriage return or line feed -/
def isNlB (b : Nat) : Bool := b = 13 ∨ b = 10

/-- space, tab, carriage return or line feed -/
def isWsB (b : Nat) : Bool := isBlankB b ∨ isNlB b

/-- Leading run of bytes satisfying `p`.  Each of the Rust scanning loops
`loop { self.index += 1; match self.buffer.get(self.index) { … } }` consumes
exactly the leading run (after the loop's entry index) of bytes of one class;
`runLen p l` is the length of that run in the remaining input `l`. -/
def runLen (p : Nat → Bool) : List Nat → Nat
  | [] => 0
  | b :: rest => if p b then runLen p rest + 1 else 0

/-- `Lexer::float_continue`, entered with `self.index = i`: bump the index,
then keep bumping while the byte is a decimal digit.  Returns the final
index; the token is always `FloatLiteral`. -/
def floatEnd (buf : List Nat) (i : Nat) : Nat :=
  i + 1 + runLen isDigitB (buf.drop (i+1))

/-- `Lexer::integer_continue`, entered with `self.index = i`: consume decimal
digits; a `.` right after them switches to `float_continue` (which consumes
the dot and the digits after it); returns the final index and the token. -/
def integerEnd (buf : List Nat) (i : Nat) : Nat × Token :=
  if buf[i + 1 + runLen isDigitB (buf.drop (i+1))]? = some 46 then
    (floatEnd buf (i + 1 + runLen isDigitB (buf.drop (i+1))), .FloatLiteral)
  else
    (i + 1 + runLen isDigitB (buf.drop (i+1)), .IntegerLiteral)

/-- The identifier arm's loop: consume `[A-Za-z0-9_]` after the first byte. -/
def identEnd (buf : List Nat) (i : Nat) : Nat :=
  i + 1 + runLen isIdentContB (buf.drop (i+1))

/-- The `0x` arm's loop: consume hex digits after the `x`/`X` at `i`. -/
def hexEnd (buf : List Nat) (i : Nat) : Nat :=
  i + 1 + runLen isHexDigitB (buf.drop (i+1))

/-- The `0b` arm's loop: consume `0`/`1` after the `b`/`B` at `i`. -/
def binEnd (buf : List Nat) (i : Nat) : Nat :=
  i + 1 + runLen isBinDigitB (buf.drop (i+1))

/-- The space/tab arm's first loop: skip `[ \t]` after the blank at `i`. -/
def blankEnd (buf : List Nat) (i : Nat) : Nat :=
  i + 1 + runLen isBlankB (buf.drop (i+1))

/-- The newline arms' loop: skip `[ \t\r\n]` after the byte at `i`. -/
def wsEnd (buf : List Nat) (i : Nat) : Nat :=
  i + 1 + runLen isWsB (buf.drop (i+1))

/-- The string arm's loop, applied to the bytes after the opening quote:
number of bytes consumed (the index is bumped once per iteration; a closing
`"` is consumed and ends the loop) and the token assigned by the loop
(`InvalidStringLiteral` exactly when end of input is hit first). -/
def stringScan : List Nat → Nat × Token
  | [] => (0, .InvalidStringLiteral)
  | b :: rest =>
    if b = 34 then (1, .StringLiteral)
    else ((stringScan rest).1 + 1, (stringScan rest).2)

/-- Final index of the string arm's loop entered at the opening quote `i`. -/
def stringEnd (buf : List Nat) (i : Nat) : Nat :=
  i + 1 + (stringScan (buf.drop (i+1))).1

/-- The token the string arm's loop assigns.  In the source this assignment
is dead: right after the loop, `Lexer::next` unconditionally executes
`self.token = Token::StringLiteral;`, overwriting it (see `lexNextAux`). -/
def stringLoopToken (buf : List Nat) (i : Nat) : Token :=
  (stringScan (buf.drop (i+1))).2

/-- Convert an identifier slice (bytes) to the string used for the
`KEYWORDS` lookup. -/
def bytesToString (l : List Nat) : String :=
  String.mk (l.map Char.ofNat)

/-- `source[a..b]` as a byte list. -/
def sliceBytes (buf : List Nat) (a b : Nat) : List Nat :=
  (buf.drop a).take (b - a)

/-- The token dispatch of `Lexer::next`, reached once skippable bytes are
behind: `i` is the current index (the token's start), `b` the byte there,
`tok` the token left over from the previous call.  Returns the new index and
token. -/
def lexDispatch (buf : List Nat) (tok : Token) (i : Nat) (b : Nat) : Nat × Token :=
  match b with
  | 40 => (i+1, .LeftParen)
  | 41 => (i+1, .RightParen)
  | 91 => (i+1, .LeftBrack)
  | 93 => (i+1, .RightBrack)
  | 123 => (i+1, .LeftBrace)
  | 125 => (i+1, .RightBrace)
  | 44 => (i+1, .Comma)
  | 43 => (i+1, .Add)
  | 45 => (i+1, .Sub)
  | 42 => (i+1, .Mul)
  | 47 => (i+1, .Div)
  | 37 => (i+1, .Keyword .MOD)
  | 61 => (i+1, .Equal)
  | 33 =>
    -- `!` : peek at the next byte but do NOT consume it
    (i+1, if buf[i+1]? = some 61 then .NotEqual else .Equal)
  | 62 =>
    if buf[i+1]? = some 61 then (i+2, .GreaterEqual) else (i+1, .Greater)
  | 60 =>
    if buf[i+1]? = some 45 then (i+2, .ThinArrow)
    else if buf[i+1]? = some 61 then (i+2, .LessEqual)
    else (i+1, .Less)
  | 34 =>
    -- string: the loop's token assignment (`stringLoopToken`) is dead:
    -- `self.token = Token::StringLiteral;` after the loop overwrites it
    (stringEnd buf i, .StringLiteral)
  | 48 =>
    -- leading `0`: 0x…, 0b…, 0.…, 0[1-9]…, bare 0
    match buf[i+1]? with
    | some b2 =>
      if b2 = 120 ∨ b2 = 88 then (hexEnd buf (i+1), .HexLiteral)
      else if b2 = 98 ∨ b2 = 66 then (binEnd buf (i+1), .BinaryLiteral)
      else if b2 = 46 then (floatEnd buf (i+1), .FloatLiteral)
      else if 49 ≤ b2 ∧ b2 ≤ 57 then integerEnd buf (i+1)
      else (i+1, .IntegerLiteral)
    | none => (i+1, .IntegerLiteral)
  | b =>
    -- the remaining arms of the Rust match are byte-range patterns, disjoint
    -- from all of the literal bytes above
    if isIdentStartB b then
      (identEnd buf i,
       (keywordOf (bytesToString (sliceBytes buf i (identEnd buf i)))).getD .Identifier)
    else if isDigitB b then integerEnd buf i
    else
      -- `_ => {}` : no token starts with this byte; index and token stay
      (i, tok)

/-- `Lexer::next`'s `'main` loop, entered with the running index `i`
(`self.start = self.index` happens at the top of each iteration, so the
returned state's `start` is the `i` of the final iteration).  `tok` is the
token left from the previous call. -/
def lexNextAux (buf : List Nat) (tok : Token) (nl : Bool) (i : Nat) : Lexer :=
  match hb : buf[i]? with
  | none => { start := i, index := i, buffer := buf, token := .EOF, hasNewlineBefore := nl }
  | some b =>
    if isNlB b then
      lexNextAux buf tok true (wsEnd buf i)
    else if isBlankB b then
      -- skip [ \t]; if that run ends at \r or \n, set the flag and skip [ \t\r\n]
      let j := blankEnd buf i
      match buf[j]? with
      | some b2 =>
        if isNlB b2 then lexNextAux buf tok true (wsEnd buf j)
        else lexNextAux buf tok nl j
      | none => lexNextAux buf tok nl j
    else
      let out := lexDispatch buf tok i b
      { start := i, index := out.1, buffer := buf, token := out.2, hasNewlineBefore := nl }
termination_by buf.length - i
decreasing_by
  all_goals
    have : i < buf.length := List.getElem?_eq_some.mp hb |>.1
    simp only [wsEnd, blankEnd]
    omega

/-- `Lexer::next`: reset `has_newline_before`, then run the `'main` loop from
the current index. -/
def lexNext (l : Lexer) : Lexer :=
  lexNextAux l.buffer l.token false l.index

/-! ## AST (`aps_core/src/ast.rs`)

The `aps_core` crate's `ast.rs` is not part of the source snapshot (only the
older root crate's `src/ast.rs` is, which lacks the `Procedure`,
`IndexAssign` and parameter forms).  The constructors and fields below are
reconstructed from their uses in `aps_core/src/parser.rs` and
`aps_core/src/vm.rs`, which are present.  Spans into the source whose only
use is slicing the source text (identifier names, literal texts, parameter
names) additionally carry the denoted slice/parse result as an explicit
field, since the evaluator only ever consumes `source[span]`. -/

inductive UnaryOpKind where
  | Pos | Neg | Not
deriving DecidableEq, Repr

inductive BinaryOpKind where
  | Add | Sub | Mul | Div | Mod | Equal | NotEqual
  | Less | LessEqual | Greater | GreaterEqual | And | Or
deriving DecidableEq, Repr

inductive Expr where
  | Void
  | TrueLit (start : Nat)
  | FalseLit (start : Nat)
  | Identifier (span : Span) (name : String)
  | ArrayLiteral (span : Span) (values : List Expr)
  | Index (span : Span) (value : Expr) (index : Expr)
  | StringLiteral (span : Span) (content : String)
  | IntegerLiteral (span : Span) (value : ℚ)
  | FloatLiteral (span : Span) (value : ℚ)
  | BinaryLiteral (span : Span)
  | HexLiteral (span : Span)
  | FnCall (span : Span) (calle : Expr) (args : List Expr)
  | UnaryOp (span : Span) (kind : UnaryOpKind) (value : Expr)
  | BinaryOp (kind : BinaryOpKind) (lhs : Expr) (rhs : Expr)
  | Paren (span : Span) (value : Expr)
deriving Repr

/-- `impl Node for Expr`.  `Expr::Void` panics in Rust (`unreachable!()`);
the evaluator never calls `span` on it, and it is given the zero span here. -/
def Expr.span : Expr → Span
  | .Void => ⟨0, 0⟩
  | .TrueLit s => ⟨s, s + 4⟩
  | .FalseLit s => ⟨s, s + 5⟩
  | .Identifier sp _ => sp
  | .ArrayLiteral sp _ => sp
  | .Index sp _ _ => sp
  | .StringLiteral sp _ => sp
  | .IntegerLiteral sp _ => sp
  | .FloatLiteral sp _ => sp
  | .BinaryLiteral sp => sp
  | .HexLiteral sp => sp
  | .FnCall sp _ _ => sp
  | .UnaryOp sp _ _ => sp
  | .BinaryOp _ lhs rhs => ⟨lhs.span.start, rhs.span.stop⟩
  | .Paren sp _ => sp

mutual
inductive Stmt where
  | Return (start : Nat) (value : Expr)
  | Expr (e : Expr)
  | VarAssign (name : Span) (nameStr : String) (value : Expr)
  | Procedure (p : Proc)
  | IndexAssign (root : Expr) (index : Expr) (value : Expr)
  | If (cond : Expr) (scope : List Stmt) (elseIfs : List ElseIf) (els : Option (List Stmt))
  | RepeatN (n : Expr) (scope : List Stmt)
  | RepeatUntil (cond : Expr) (scope : List Stmt)
  | For (aliasSpan : Span) (aliasStr : String) (array : Expr) (scope : List Stmt)

inductive ElseIf where
  | mk (cond : Expr) (scope : List Stmt)

inductive Proc where
  | mk (name : Span) (nameStr : String) (params : List (Span × String)) (scope : List Stmt)
end

def Proc.nameStr : Proc → String
  | .mk _ s _ _ => s

def Proc.params : Proc → List (Span × String)
  | .mk _ _ p _ => p

def Proc.scope : Proc → List Stmt
  | .mk _ _ _ sc => sc

/-- `impl Node for Stmt`.  The evaluator uses it only for the `IndexAssign`
out-of-range exception ("the *statement's* span"); the extent is taken from
the root expression's start to the assigned value's end, like `VarAssign`.
Other variants panic in the root crate's `ast.rs` and are given zero spans. -/
def Stmt.span : Stmt → Span
  | .Return start value =>
    ⟨start, match value with
            | .Void => start + 6
            | v => v.span.stop⟩
  | .VarAssign name _ value => ⟨name.start, value.span.stop⟩
  | .IndexAssign root _ value => ⟨root.span.start, value.span.stop⟩
  | _ => ⟨0, 0⟩

/-! ## Value model and interpreter state (`aps_core/src/vm.rs`)

`Value::Number(f32)` is modelled over `ℚ`; shared mutable `Gc` arrays become
addresses into a store (`VMState.arrays`), and the `Rc<RefCell<Env>>` chain
becomes addresses into `VMState.envs`.  Active `GcCell` borrows that the
evaluator holds across sub-evaluations (the FOR loop's `arr.borrow()` and
`IndexAssign`'s `borrow_mut`) are tracked in `locks`; `borrow`/`borrow_mut`
attempts that violate them abort the program (`Res.crash`), exactly as the
`gc` crate's `GcCell` panics.  Integer overflow follows release-profile
(wrap-around) semantics. -/

inductive BuiltinName where
  | DISPLAY | INPUT | RANDOM | APPEND | INSERT | REMOVE | LENGTH
deriving DecidableEq, Repr

structure Exn where
  message : String
  span : Span
  stack : List Span
deriving DecidableEq, Repr

inductive Value where
  | void
  | bool (b : Bool)
  | number (n : ℚ)
  | string (s : String)
  | array (addr : Nat)
  | builtin (b : BuiltinName)
  | procedure (p : Proc)
  | exception (e : Exn)

def Value.isExn : Value → Bool
  | .exception _ => true
  | _ => false

structure EnvObj where
  parent : Option Nat
  entries : List (String × Value)

/-- Interpreter state: the environment store, the array store, the active
`GcCell` borrows (address, is-mutable), and the external world (stdout
transcript, stdin lines, the random-number source as an oracle stream). -/
structure VMState where
  envs : List EnvObj
  arrays : List (List Value)
  locks : List (Nat × Bool)
  output : List String
  stdin : List String
  rng : List Int

/-- Evaluation outcome: a value with the updated state, a Rust panic/abort
(`unreachable!`, `panic!`, `GcCell` borrow violations, `gen_range` on an
empty range), or exhausted fuel (models non-termination / unbounded
recursion). -/
inductive Res (α : Type) where
  | ok (v : α) (s : VMState)
  | crash
  | timeout

/-- `HashMap::get` over the entry list. -/
def lookupEntry : List (String × Value) → String → Option Value
  | [], _ => none
  | (k, v) :: rest, name => if k = name then some v else lookupEntry rest name

/-- `HashMap::insert`: replace an existing binding or add a new one. -/
def insertEntry : List (String × Value) → String → Value → List (String × Value)
  | [], name, v => [(name, v)]
  | (k, w) :: rest, name, v =>
    if k = name then (k, v) :: rest else (k, w) :: insertEntry rest name v

/-- `Env::get`: look in the entries, else recurse into the parent.  The
parent chain is acyclic by construction (a child's parent always has a
smaller store address), so the fuel `addr + 1` used by `envGet` never runs
out on states built by the evaluator. -/
def envGetAux : Nat → List EnvObj → Nat → String → Option Value
  | 0, _, _, _ => none
  | fuel+1, envs, addr, name =>
    match envs[addr]? with
    | none => none
    | some env =>
      match lookupEntry env.entries name with
      | some v => some v
      | none =>
        match env.parent with
        | some p => envGetAux fuel envs p name
        | none => none

def envGet (envs : List EnvObj) (addr : Nat) (name : String) : Option Value :=
  envGetAux (addr + 1) envs addr name

/-- The `VarAssign` walk: the nearest environment on the parent chain that
already has a binding for `name`, if any. -/
def assignLocAux : Nat → List EnvObj → Nat → String → Option Nat
  | 0, _, _, _ => none
  | fuel+1, envs, addr, name =>
    match envs[addr]? with
    | none => none
    | some env =>
      if (lookupEntry env.entries name).isSome then some addr
      else
        match env.parent with
        | some p => assignLocAux fuel envs p name
        | none => none

def assignLoc (envs : List EnvObj) (addr : Nat) (name : String) : Option Nat :=
  assignLocAux (addr + 1) envs addr name

def updateEnvEntries (s : VMState) (addr : Nat)
    (f : List (String × Value) → List (String × Value)) : VMState :=
  { s with envs :=
      match s.envs[addr]? with
      | some env => s.envs.set addr { env with entries := f env.entries }
      | none => s.envs }

/-- The `VarAssign` statement's effect once the right-hand side is a value:
overwrite the nearest existing binding on the chain, else create the binding
in the environment `addr` that was passed to `eval_scope`. -/
def setVar (s : VMState) (addr : Nat) (name : String) (v : Value) : VMState :=
  match assignLoc s.envs addr name with
  | some a => updateEnvEntries s a (fun es => insertEntry es name v)
  | none => updateEnvEntries s addr (fun es => insertEntry es name v)

def arrGet (s : VMState) (addr : Nat) : Option (List Value) :=
  s.arrays[addr]?

def arrSet (s : VMState) (addr : Nat) (items : List Value) : VMState :=
  { s with arrays := s.arrays.set addr items }

def allocArray (s : VMState) (items : List Value) : Nat × VMState :=
  (s.arrays.length, { s with arrays := s.arrays ++ [items] })

def allocEnv (s : VMState) (env : EnvObj) : Nat × VMState :=
  (s.envs.length, { s with envs := s.envs ++ [env] })

/-- `GcCell::borrow` succeeds unless a mutable borrow of the same cell is
active. -/
def canBorrow (s : VMState) (addr : Nat) : Bool :=
  s.locks.all (fun p => if p.1 = addr then !p.2 else true)

/-- `GcCell::borrow_mut` succeeds only if no borrow of the cell is active. -/
def canBorrowMut (s : VMState) (addr : Nat) : Bool :=
  s.locks.all (fun p => p.1 ≠ addr)

def pushLock (s : VMState) (addr : Nat) (isMut : Bool) : VMState :=
  { s with locks := (addr, isMut) :: s.locks }

def popLock (s : VMState) : VMState :=
  { s with locks := s.locks.tail }

/-! ### Numeric conversions (release-profile `as` casts over `ℚ`) -/

/-- `f32 as u32`: truncate toward zero, saturating into `[0, 2^32)`. -/
def ratToU32 (q : ℚ) : Nat :=
  if q < 0 then 0 else min q.floor.toNat (2^32 - 1)

/-- `f32 as usize`: truncate toward zero, saturating into `[0, 2^64)`. -/
def ratToUsize (q : ℚ) : Nat :=
  if q < 0 then 0 else min q.floor.toNat (2^64 - 1)

/-- `x - 1` on `usize` with release (wrap-around) overflow semantics:
`0 - 1` wraps to `2^64 - 1`. -/
def usizeSub1 (x : Nat) : Nat :=
  (x + (2^64 - 1)) % 2^64

/-- `f32::round`: round half away from zero. -/
def ratRound (q : ℚ) : Int :=
  if 0 ≤ q then (q + 1/2).floor else -((-q + 1/2).floor)

/-- `as i32` on a float result: saturating. -/
def intToI32 (x : Int) : Int :=
  max (-(2^31)) (min x (2^31 - 1))

/-- Truncation toward zero. -/
def ratTrunc (q : ℚ) : Int :=
  if 0 ≤ q then q.floor else -((-q).floor)

/-- The host float remainder `%` (sign of the dividend).  For a zero divisor
`f32` yields NaN, which `ℚ` cannot represent; no claim exercises `MOD`. -/
def ratRem (a b : ℚ) : ℚ :=
  a - b * (ratTrunc (a / b) : ℚ)

/-- `n.floor() != n` (integer-valuedness test of `RepeatN`/`validate_index`). -/
def isIntRat (q : ℚ) : Bool :=
  (q.floor : ℚ) = q

/-! ### Rendering (`impl Display/Debug for Value`) -/

/-- Display for numbers: Rust prints `f32` with `{}` (integers without a
decimal point).  Non-integral rationals use the `ℚ` representation — an
abstraction; no claim depends on number formatting. -/
def ratDisplay (q : ℚ) : String :=
  if q.den = 1 then toString q.num else toString q

/-- The backslash rule of `Display` for strings: on `\` the next character is
consumed by the extra `iter.next()` and neither is printed. -/
def renderString : List Char → List Char
  | [] => []
  | c :: rest =>
    if c = '\\' then
      match rest with
      | [] => []
      | _ :: rest2 => renderString rest2
    else c :: renderString rest

/-- Debug formatting used inside error messages (`{v:?}`).  Arrays would
print their full contents through the shared store; no claim depends on the
message text, so they render as a placeholder here. -/
def vdebug : Value → String
  | .void => "<void>"
  | .bool b => if b then "true" else "false"
  | .number n => ratDisplay n
  | .string str => "\"" ++ str ++ "\""
  | .array _ => "<array>"
  | .builtin _ => "<builtin>"
  | .procedure _ => "<procedure>"
  | .exception _ => "<exception>"

mutual

/-- `impl Display for Value`: printing an array takes a shared `GcCell`
borrow (abort if mutably borrowed); printing an `Exception` is
`unreachable!()`.  Fuel bounds the recursion (cyclic arrays overflow the
stack in Rust; here the fuel runs out). -/
def renderValue : Nat → VMState → Value → Res String
  | 0, _, _ => .timeout
  | _+1, s, .void => .ok "<void>" s
  | _+1, s, .bool b => .ok (if b then "true" else "false") s
  | _+1, s, .number n => .ok (ratDisplay n) s
  | _+1, s, .string str => .ok (String.mk (renderString str.data)) s
  | _+1, s, .procedure _ => .ok "<procedure>" s
  | _+1, s, .builtin _ => .ok "<builtin>" s
  | _+1, _, .exception _ => .crash
  | fuel+1, s, .array addr =>
    if canBorrow s addr then
      match arrGet s addr with
      | some items =>
        match renderItems fuel s items with
        | .ok inner s1 => .ok ("[" ++ inner ++ "]") s1
        | .crash => .crash
        | .timeout => .timeout
      | none => .crash
    else .crash
termination_by structural fuel => fuel

/-- Elements print in their `Debug` form (strings quoted), separated by
`", "`. -/
def renderItems : Nat → VMState → List Value → Res String
  | 0, _, _ => .timeout
  | _+1, s, [] => .ok "" s
  | fuel+1, s, [v] => renderDebug fuel s v
  | fuel+1, s, v :: rest =>
    match renderDebug fuel s v with
    | .ok str s1 =>
      match renderItems fuel s1 rest with
      | .ok str2 s2 => .ok (str ++ ", " ++ str2) s2
      | .crash => .crash
      | .timeout => .timeout
    | .crash => .crash
    | .timeout => .timeout
termination_by structural fuel => fuel

def renderDebug : Nat → VMState → Value → Res String
  | 0, _, _ => .timeout
  | _+1, s, .string str => .ok ("\"" ++ str ++ "\"") s
  | fuel+1, s, v => renderValue fuel s v
termination_by structural fuel => fuel

end

/-! ### `impl PartialEq for Value` -/

mutual

/-- Value equality.  Arrays (`Gc<GcCell<Array>>`) compare by borrowing both
cells and comparing contents element-wise — a borrow violation aborts, and
comparing cyclic arrays never terminates (fuel).  `Exception` never equals
anything; `Void` has no arm and falls to the catch-all `false`;
`Builtin` compares by function pointer. `Number` equality on `ℚ` differs
from `f32` only at NaN, which `ℚ` does not have. -/
def valueEqF : Nat → VMState → Value → Value → Res Bool
  | 0, _, _, _ => .timeout
  | fuel+1, s, a, b =>
    match a, b with
    | .bool l, .bool r => .ok (decide (l = r)) s
    | .number l, .number r => .ok (decide (l = r)) s
    | .string l, .string r => .ok (decide (l = r)) s
    | .array l, .array r =>
      if canBorrow s l ∧ canBorrow s r then
        match arrGet s l, arrGet s r with
        | some il, some ir => listEqF fuel s il ir
        | _, _ => .crash
      else .crash
    | .builtin l, .builtin r => .ok (decide (l = r)) s
    | .exception _, .exception _ => .ok false s
    | _, _ => .ok false s
termination_by structural fuel => fuel

def listEqF : Nat → VMState → List Value → List Value → Res Bool
  | 0, _, _, _ => .timeout
  | _+1, s, [], [] => .ok true s
  | fuel+1, s, x :: xs, y :: ys =>
    match valueEqF fuel s x y with
    | .ok true s1 => listEqF fuel s1 xs ys
    | .ok false s1 => .ok false s1
    | .crash => .crash
    | .timeout => .timeout
  | _+1, s, _, _ => .ok false s
termination_by structural fuel => fuel

end

/-! ### Built-ins (`aps_core/src/stdlib.rs`) -/

def isDigitC (c : Char) : Bool := '0' ≤ c ∧ c ≤ '9'

def digitsToNat (l : List Char) : Nat :=
  l.foldl (fun acc c => acc * 10 + (c.toNat - 48)) 0

/-- Abstraction of `str::parse::<f32>` used by `INPUT`: an optional sign,
digits, and an optional fractional part.  (No exponents or infinities; no
claim depends on `INPUT`.) -/
def parseNumber (str : String) : Option ℚ :=
  let cs := str.data
  let signed : ℚ × List Char :=
    match cs with
    | '-' :: rest => (-1, rest)
    | '+' :: rest => (1, rest)
    | _ => (1, cs)
  let intPart := signed.2.takeWhile isDigitC
  let rest := signed.2.dropWhile isDigitC
  match rest with
  | [] => if intPart.isEmpty then none else some (signed.1 * digitsToNat intPart)
  | '.' :: frac =>
    if frac.all isDigitC ∧ (intPart ≠ [] ∨ frac ≠ []) then
      some (signed.1 * ((digitsToNat intPart : ℚ) + (digitsToNat frac : ℚ) / (10 ^ frac.length)))
    else none
  | _ => none

/-- The zero span used by `fail!(…, BUILTIN)`. -/
def builtinSpan : Span := ⟨0, 0⟩

def failV (msg : String) (sp : Span) (s : VMState) : Res Value :=
  .ok (.exception ⟨msg, sp, []⟩) s

/-- `display_helper`: render the arguments separated by single spaces
(writes to stdout are assumed to succeed; the io-error exception paths are
not modelled). -/
def displayHelper : Nat → VMState → List Value → Res String
  | 0, _, _ => .timeout
  | _+1, s, [] => .ok "" s
  | fuel+1, s, [a] => renderValue fuel s a
  | fuel+1, s, a :: rest =>
    match renderValue fuel s a with
    | .ok str s1 =>
      match displayHelper fuel s1 rest with
      | .ok str2 s2 => .ok (str ++ " " ++ str2) s2
      | .crash => .crash
      | .timeout => .timeout
    | .crash => .crash
    | .timeout => .timeout

/-- `validate_index`: integrality and `idx ≥ 1`; writes the `usize` cast of
the index through `out`.  Returns `Void` or an exception. -/
def validate_index (idx : ℚ) : Sum Exn Nat :=
  if ¬isIntRat idx then .inl ⟨"array index is not an integer", builtinSpan, []⟩
  else if idx < 1 then .inl ⟨"array index out of range", builtinSpan, []⟩
  else .inr (ratToUsize idx)

/-- The built-in functions.  `DISPLAY` appends one line to the transcript;
`INPUT` consumes one stdin line (end of input reads as the empty string);
`RANDOM` draws from the oracle stream `rng`, clamped into the requested
range, and panics (as `rand::gen_range` does) when the range is empty. -/
def callBuiltin (fuel : Nat) (b : BuiltinName) (args : List Value) (s : VMState) : Res Value :=
  match b with
  | .DISPLAY =>
    match displayHelper fuel s args with
    | .ok str s1 => .ok .void { s1 with output := s1.output ++ [str] }
    | .crash => .crash
    | .timeout => .timeout
  | .INPUT =>
    match args with
    | [] =>
      let s1 := { s with output := s.output ++ ["Input: "] }
      inputRead s1
    | _ =>
      match displayHelper fuel s args with
      | .ok str s1 => inputRead { s1 with output := s1.output ++ [str ++ " "] }
      | .crash => .crash
      | .timeout => .timeout
  | .RANDOM =>
    match args[0]?, args[1]? with
    | some (Value.number n1), some (Value.number n2) =>
      let lo := intToI32 (ratRound n1)
      let hi := intToI32 (ratRound n2)
      if lo > hi then .crash
      else
        match s.rng with
        | r :: rest => .ok (.number ((max lo (min hi r) : Int) : ℚ)) { s with rng := rest }
        | [] => .ok (.number (lo : ℚ)) s
    | _, _ => failV "expected valid range start and end numbers" builtinSpan s
  | .APPEND =>
    match args[0]? with
    | some (Value.array addr) =>
      match args[1]? with
      | some val =>
        if canBorrowMut s addr then
          match arrGet s addr with
          | some items => .ok .void (arrSet s addr (items ++ [val]))
          | none => .crash
        else .crash
      | none => failV "expected value for the second argument" builtinSpan s
    | _ => failV "expected array for the first argument" builtinSpan s
  | .INSERT =>
    match args[0]? with
    | some (Value.array addr) =>
      match args[1]? with
      | some (Value.number idx) =>
        match args[2]? with
        | some val =>
          match validate_index idx with
          | .inl e => .ok (.exception e) s
          | .inr correct =>
            if canBorrowMut s addr then
              match arrGet s addr with
              | some items =>
                if correct > items.length then
                  failV "array index out of range" builtinSpan s
                else
                  .ok .void (arrSet s addr
                    (items.take (correct - 1) ++ val :: items.drop (correct - 1)))
              | none => .crash
            else .crash
        | none => failV "expected value for the third argument" builtinSpan s
      | _ => failV "expected index for the second argument" builtinSpan s
    | _ => failV "expected array for the first argument" builtinSpan s
  | .REMOVE =>
    match args[0]? with
    | some (Value.array addr) =>
      match args[1]? with
      | some (Value.number idx) =>
        match validate_index idx with
        | .inl e => .ok (.exception e) s
        | .inr correct =>
          if canBorrowMut s addr then
            match arrGet s addr with
            | some items =>
              if correct > items.length then
                failV "array index out of range" builtinSpan s
              else
                .ok .void (arrSet s addr
                  (items.take (correct - 1) ++ items.drop correct))
            | none => .crash
          else .crash
      | _ => failV "expected number for the second argument" builtinSpan s
    | _ => failV "expected array for the first argument" builtinSpan s
  | .LENGTH =>
    match args[0]? with
    | some (Value.array addr) =>
      if canBorrow s addr then
        match arrGet s addr with
        | some items => .ok (.number (items.length : ℚ)) s
        | none => .crash
      else .crash
    | _ => failV "expected the first argument to be an array" builtinSpan s
where
  /-- `INPUT`'s read of one line: trim, then number-or-string. -/
  inputRead (s1 : VMState) : Res Value :=
    let line := s1.stdin.headD ""
    let s2 := { s1 with stdin := s1.stdin.tail }
    let outs := line.trim
    match parseNumber outs with
    | some f => .ok (.number f) s2
    | none => .ok (.string outs) s2

/-! ### The evaluator (`VM::eval_expr` / `VM::eval_scope`)

Fuel is an artifact of the embedding: every recursive call decrements it, so
running out (`Res.timeout`) means only that not enough fuel was supplied —
for each terminating execution some fuel suffices.  `env` arguments are
addresses into `VMState.envs`. -/

/-- The `tee!` macro: an exception value is returned as-is, anything else is
passed on. -/
def tee (r : Res Value) (k : Value → VMState → Res Value) : Res Value :=
  match r with
  | .ok (.exception e) s => .ok (.exception e) s
  | .ok v s => k v s
  | .crash => .crash
  | .timeout => .timeout

/-- A single quote character (for the `'name' is not defined` message). -/
def sq : String := String.singleton (Char.ofNat 39)

/-- Bind evaluated arguments to the parameter names in a fresh entry map
(`child_env.entries.insert(source[params[idx]], argv)` in order). -/
def buildParamEntries (params : List (Span × String)) (argv : List Value) :
    List (String × Value) :=
  (params.zip argv).foldl (fun acc pv => insertEntry acc pv.1.2 pv.2) []

mutual

def evalExpr : Nat → Expr → Nat → VMState → Res Value
  | 0, _, _, _ => .timeout
  | fuel+1, e, env, s =>
    match e with
    | .Void => .crash
    | .BinaryLiteral _ => .crash
    | .HexLiteral _ => .crash
    | .TrueLit _ => .ok (.bool true) s
    | .FalseLit _ => .ok (.bool false) s
    | .IntegerLiteral _ q => .ok (.number q) s
    | .FloatLiteral _ q => .ok (.number q) s
    | .StringLiteral _ content => .ok (.string content) s
    | .Identifier sp name =>
      match envGet s.envs env name with
      | some v => .ok v s
      | none => failV (sq ++ name ++ sq ++ " is not defined") sp s
    | .Index sp value index =>
      tee (evalExpr fuel value env s) fun v s1 =>
        match v with
        | .array addr =>
          tee (evalExpr fuel index env s1) fun iv s2 =>
            match iv with
            | .number idx =>
              if canBorrow s2 addr then
                match arrGet s2 addr with
                | some items =>
                  match items[usizeSub1 (ratToU32 idx)]? with
                  | some w => .ok w s2
                  | none => failV ("index " ++ ratDisplay idx ++
                      " is out of array range (length: " ++ toString items.length ++ ")") sp s2
                | none => .crash
              else .crash
            | _ => failV (vdebug iv ++ " is not an integer") sp s2
        | _ => failV (vdebug v ++ " is not an array") sp s1
    | .UnaryOp _ kind value =>
      tee (evalExpr fuel value env s) fun val s1 =>
        match kind with
        | .Not =>
          match val with
          | .bool b => .ok (.bool !b) s1
          | _ => failV (vdebug val ++ " is not a boolean") value.span s1
        | .Pos =>
          match val with
          | .number n => .ok (.number n) s1
          | _ => failV (vdebug val ++ " is not a boolean") value.span s1
        | .Neg =>
          match val with
          | .number n => .ok (.number (-n)) s1
          | _ => failV (vdebug val ++ " is not a boolean") value.span s1
    | .BinaryOp kind lhs rhs =>
      match kind with
      | .And =>
        tee (evalExpr fuel lhs env s) fun lv s1 =>
          match lv with
          | .bool b1 =>
            if !b1 then .ok (.bool false) s1
            else
              tee (evalExpr fuel rhs env s1) fun rv s2 =>
                match rv with
                | .bool b2 => .ok (.bool b2) s2
                | _ => failV (vdebug rv ++ " is not a boolean") rhs.span s2
          | _ => failV (vdebug lv ++ " is not a boolean") lhs.span s1
      | .Or =>
        tee (evalExpr fuel lhs env s) fun lv s1 =>
          match lv with
          | .bool b1 =>
            if b1 then .ok (.bool true) s1
            else
              tee (evalExpr fuel rhs env s1) fun rv s2 =>
                match rv with
                | .bool b2 => .ok (.bool b2) s2
                | _ => failV (vdebug rv ++ " is not a boolean") rhs.span s2
          | _ => failV (vdebug lv ++ " is not a boolean") lhs.span s1
      | .Equal =>
        tee (evalExpr fuel lhs env s) fun lv s1 =>
          tee (evalExpr fuel rhs env s1) fun rv s2 =>
            match valueEqF fuel s2 lv rv with
            | .ok b s3 => .ok (.bool b) s3
            | .crash => .crash
            | .timeout => .timeout
      | .NotEqual =>
        tee (evalExpr fuel lhs env s) fun lv s1 =>
          tee (evalExpr fuel rhs env s1) fun rv s2 =>
            match valueEqF fuel s2 lv rv with
            | .ok b s3 => .ok (.bool !b) s3
            | .crash => .crash
            | .timeout => .timeout
      | _ =>
        tee (evalExpr fuel lhs env s) fun lv s1 =>
          tee (evalExpr fuel rhs env s1) fun rv s2 =>
            match lv with
            | .number n1 =>
              match rv with
              | .number n2 =>
                match kind with
                | .Add => .ok (.number (n1 + n2)) s2
                | .Sub => .ok (.number (n1 - n2)) s2
                | .Mul => .ok (.number (n1 * n2)) s2
                | .Div => .ok (.number (n1 / n2)) s2
                | .Mod => .ok (.number (ratRem n1 n2)) s2
                | .Greater => .ok (.bool (decide (n1 > n2))) s2
                | .GreaterEqual => .ok (.bool (decide (n1 ≥ n2))) s2
                | .Less => .ok (.bool (decide (n1 < n2))) s2
                | .LessEqual => .ok (.bool (decide (n1 ≤ n2))) s2
                | _ => .crash
              | _ => failV (vdebug rv ++ " is not a number") rhs.span s2
            | _ => failV (vdebug lv ++ " is not a number") lhs.span s1
    | .Paren _ value =>
      tee (evalExpr fuel value env s) fun v s1 => .ok v s1
    | .ArrayLiteral _ values =>
      match evalArgs fuel values env s with
      | .ok (.inl exn) s1 => .ok (.exception exn) s1
      | .ok (.inr items) s1 =>
        match allocArray s1 items with
        | (addr, s2) => .ok (.array addr) s2
      | .crash => .crash
      | .timeout => .timeout
    | .FnCall sp calle args =>
      tee (evalExpr fuel calle env s) fun v s1 =>
        match v with
        | .procedure p =>
          if args.length ≠ p.params.length then
            failV ("expected " ++ toString p.params.length ++ " arguments, found " ++
              toString args.length) sp s1
          else
            match evalArgs fuel args env s1 with
            | .ok (.inl exn) s2 => .ok (.exception exn) s2
            | .ok (.inr argv) s2 =>
              match allocEnv s2 ⟨some env, buildParamEntries p.params argv⟩ with
              | (caddr, s3) =>
                match evalScope fuel p.scope caddr s3 with
                | .ok (.exception e) s4 =>
                  .ok (.exception { e with stack := e.stack ++ [sp] }) s4
                | r => r
            | .crash => .crash
            | .timeout => .timeout
        | .builtin bname =>
          match evalArgs fuel args env s1 with
          | .ok (.inl exn) s2 => .ok (.exception exn) s2
          | .ok (.inr argv) s2 =>
            match callBuiltin fuel bname argv s2 with
            | .ok (.exception e) s3 => .ok (.exception ⟨e.message, sp, []⟩) s3
            | r => r
          | .crash => .crash
          | .timeout => .timeout
        | _ => failV (vdebug v ++ " is not a function") calle.span s1
termination_by structural fuel => fuel

/-- Left-to-right evaluation of an expression list with `tee!` on each
element (array literals, call arguments). -/
def evalArgs : Nat → List Expr → Nat → VMState → Res (Sum Exn (List Value))
  | 0, _, _, _ => .timeout
  | _+1, [], _, s => .ok (.inr []) s
  | fuel+1, e :: rest, env, s =>
    match evalExpr fuel e env s with
    | .ok (.exception exn) s1 => .ok (.inl exn) s1
    | .ok v s1 =>
      match evalArgs fuel rest env s1 with
      | .ok (.inr vs) s2 => .ok (.inr (v :: vs)) s2
      | r => r
    | .crash => .crash
    | .timeout => .timeout
termination_by structural fuel => fuel

def evalScope : Nat → List Stmt → Nat → VMState → Res Value
  | 0, _, _, _ => .timeout
  | _+1, [], _, s => .ok .void s
  | fuel+1, stmt :: rest, env, s =>
    match stmt with
    | .Expr e =>
      tee (evalExpr fuel e env s) fun _ s1 => evalScope fuel rest env s1
    | .VarAssign _ name value =>
      tee (evalExpr fuel value env s) fun v s1 =>
        evalScope fuel rest env (setVar s1 env name v)
    | .Procedure p =>
      evalScope fuel rest env
        (updateEnvEntries s env (fun es => insertEntry es p.nameStr (.procedure p)))
    | .IndexAssign root index value =>
      tee (evalExpr fuel root env s) fun rv s1 =>
        match rv with
        | .array addr =>
          tee (evalExpr fuel index env s1) fun iv s2 =>
            match iv with
            | .number idx =>
              -- `rootv.borrow_mut()` is held across the value evaluation
              if canBorrowMut s2 addr then
                match arrGet s2 addr with
                | some items =>
                  if usizeSub1 (ratToU32 idx) < items.length then
                    match evalExpr fuel value env (pushLock s2 addr true) with
                    | .ok (.exception e) s3 => .ok (.exception e) (popLock s3)
                    | .ok v s3 =>
                      match arrGet s3 addr with
                      | some items2 =>
                        evalScope fuel rest env
                          (popLock (arrSet s3 addr (items2.set (usizeSub1 (ratToU32 idx)) v)))
                      | none => .crash
                    | .crash => .crash
                    | .timeout => .timeout
                  else
                    failV ("index is out of bounds: the length is " ++ toString items.length ++
                      " but the index is " ++ ratDisplay idx) stmt.span s2
                | none => .crash
              else .crash
            | _ => failV (vdebug iv ++ " is not a number") index.span s2
        | _ => failV (vdebug rv ++ " is not an array") root.span s1
    | .Return _ value => evalExpr fuel value env s
    | .If cond scope elseIfs els =>
      tee (evalExpr fuel cond env s) fun cv s1 =>
        match cv with
        | .bool b =>
          if b then
            tee (evalScope fuel scope env s1) fun sv s2 =>
              match sv with
              | .void => evalScope fuel rest env s2
              | v => .ok v s2
          else
            match evalElseIfs fuel elseIfs els env s1 with
            | .ok none s2 => evalScope fuel rest env s2
            | .ok (some v) s2 => .ok v s2
            | .crash => .crash
            | .timeout => .timeout
        | _ => failV (vdebug cv ++ " is not a boolean") cond.span s1
    | .RepeatN nexpr scope =>
      tee (evalExpr fuel nexpr env s) fun cv s1 =>
        match cv with
        | .number n =>
          if n < 0 then failV (vdebug (.number n) ++ " is not positive") nexpr.span s1
          else if ¬isIntRat n then failV (vdebug (.number n) ++ " is not an integer") nexpr.span s1
          else
            match evalRepeatN fuel (ratToU32 n) scope env s1 with
            | .ok none s2 => evalScope fuel rest env s2
            | .ok (some v) s2 => .ok v s2
            | .crash => .crash
            | .timeout => .timeout
        | _ => failV (vdebug cv ++ " is not a number") nexpr.span s1
    | .RepeatUntil cond scope =>
      match evalRepeatUntil fuel cond scope env s with
      | .ok none s1 => evalScope fuel rest env s1
      | .ok (some v) s1 => .ok v s1
      | .crash => .crash
      | .timeout => .timeout
    | .For _ aliasStr arrayExpr scope =>
      tee (evalExpr fuel arrayExpr env s) fun av s1 =>
        match av with
        | .array addr =>
          if canBorrow s1 addr then
            match arrGet s1 addr with
            | some items =>
              match evalFor fuel addr aliasStr scope env 0 items.length s1 with
              | .ok none s2 => evalScope fuel rest env s2
              | .ok (some v) s2 => .ok v s2
              | .crash => .crash
              | .timeout => .timeout
            | none => .crash
          else .crash
        | _ => failV ("<expr> is not an array") arrayExpr.span s1
termination_by structural fuel => fuel

/-- The `else if` chain of `Stmt::If` with the trailing `else`.  Returns
`some v` for an early (non-`Void`) exit — exceptions included — else `none`.
A non-boolean `else if` condition is a `panic!()` in the source. -/
def evalElseIfs : Nat → List ElseIf → Option (List Stmt) → Nat → VMState → Res (Option Value)
  | 0, _, _, _, _ => .timeout
  | fuel+1, [], els, env, s =>
    match els with
    | some scope =>
      match evalScope fuel scope env s with
      | .ok (.exception e) s1 => .ok (some (.exception e)) s1
      | .ok .void s1 => .ok none s1
      | .ok v s1 => .ok (some v) s1
      | .crash => .crash
      | .timeout => .timeout
    | none => .ok none s
  | fuel+1, .mk cond scope :: eis, els, env, s =>
    match evalExpr fuel cond env s with
    | .ok (.exception e) s1 => .ok (some (.exception e)) s1
    | .ok (.bool b) s1 =>
      if b then
        match evalScope fuel scope env s1 with
        | .ok (.exception e) s2 => .ok (some (.exception e)) s2
        | .ok .void s2 => .ok none s2
        | .ok v s2 => .ok (some v) s2
        | .crash => .crash
        | .timeout => .timeout
      else evalElseIfs fuel eis els env s1
    | .ok _ s1 => .crash
    | .crash => .crash
    | .timeout => .timeout
termination_by structural fuel => fuel

/-- The `REPEAT n TIMES` countdown loop. -/
def evalRepeatN : Nat → Nat → List Stmt → Nat → VMState → Res (Option Value)
  | 0, _, _, _, _ => .timeout
  | _+1, 0, _, _, s => .ok none s
  | fuel+1, n+1, scope, env, s =>
    match evalScope fuel scope env s with
    | .ok (.exception e) s1 => .ok (some (.exception e)) s1
    | .ok .void s1 => evalRepeatN fuel n scope env s1
    | .ok v s1 => .ok (some v) s1
    | .crash => .crash
    | .timeout => .timeout
termination_by structural fuel => fuel

/-- `REPEAT UNTIL (cond) { scope }`: the loop evaluates `cond` FIRST and
exits when it is `Bool(true)`; only when it is `Bool(false)` does the body
run (while-not semantics, not do-while). -/
def evalRepeatUntil : Nat → Expr → List Stmt → Nat → VMState → Res (Option Value)
  | 0, _, _, _, _ => .timeout
  | fuel+1, cond, scope, env, s =>
    match evalExpr fuel cond env s with
    | .ok (.exception e) s1 => .ok (some (.exception e)) s1
    | .ok (.bool b) s1 =>
      if b then .ok none s1
      else
        match evalScope fuel scope env s1 with
        | .ok (.exception e) s2 => .ok (some (.exception e)) s2
        | .ok .void s2 => evalRepeatUntil fuel cond scope env s2
        | .ok v s2 => .ok (some v) s2
        | .crash => .crash
        | .timeout => .timeout
    | .ok v s1 => .ok (some (.exception ⟨vdebug v ++ " is not a boolean", cond.span, []⟩)) s1
    | .crash => .crash
    | .timeout => .timeout
termination_by structural fuel => fuel

/-- The `FOR EACH` iteration: `len` was captured at loop entry; every
iteration re-borrows the array (`let arrb = arr.borrow();`) and HOLDS that
shared borrow across the body, releasing it only as the iteration ends — so
a `borrow_mut` of the same array inside the body (APPEND, INSERT, REMOVE,
IndexAssign) aborts.  The alias is inserted directly into the enclosing
environment's entries. -/
def evalFor : Nat → Nat → String → List Stmt → Nat → Nat → Nat → VMState → Res (Option Value)
  | 0, _, _, _, _, _, _, _ => .timeout
  | fuel+1, addr, aliasStr, scope, env, i, len, s =>
    if i ≥ len then .ok none s
    else
      if canBorrow s addr then
        match arrGet s addr with
        | some items =>
          match items[i]? with
          | none => .ok none s
          | some val =>
            match evalScope fuel scope env
                (updateEnvEntries (pushLock s addr false) env
                  (fun es => insertEntry es aliasStr val)) with
            | .ok (.exception e) s2 => .ok (some (.exception e)) (popLock s2)
            | .ok .void s2 => evalFor fuel addr aliasStr scope env (i+1) len (popLock s2)
            | .ok v s2 => .ok (some v) (popLock s2)
            | .crash => .crash
            | .timeout => .timeout
        | none => .crash
      else .crash
termination_by structural fuel => fuel

end

/-- The root environment after `stdlib::inject`: the built-ins bound by
name. -/
def initEnv : EnvObj :=
  ⟨none, [("DISPLAY", .builtin .DISPLAY), ("INPUT", .builtin .INPUT),
          ("RANDOM", .builtin .RANDOM), ("APPEND", .builtin .APPEND),
          ("INSERT", .builtin .INSERT), ("REMOVE", .builtin .REMOVE),
          ("LENGTH", .builtin .LENGTH)]⟩

/-- The initial interpreter state of `main`: one root environment, no arrays,
no active borrows, empty transcript, and the given external streams. -/
def initState (stdin : List String) (rng : List Int) : VMState :=
  ⟨[initEnv], [], [], [], stdin, rng⟩

/-! ## Claim C3: REPEAT UNTIL order of evaluation -/

/-- The program `REPEAT UNTIL (true) { x <- 1 }`. -/
def repeatUntilTrueProgram : List Stmt :=
  [.RepeatUntil (.TrueLit 0) [.VarAssign ⟨12, 13⟩ "x" (.IntegerLiteral ⟨17, 18⟩ 1)]]

/-! ## Claim C5: FOR EACH and mutation of the iteree -/

/-- The program `a <- [1]  FOR EACH x IN a { APPEND(a, 2) }`. -/
def forAppendProgram : List Stmt :=
  [.VarAssign ⟨0, 1⟩ "a" (.ArrayLiteral ⟨5, 8⟩ [.IntegerLiteral ⟨6, 7⟩ 1]),
   .For ⟨18, 19⟩ "x" (.Identifier ⟨23, 24⟩ "a")
     [.Expr (.FnCall ⟨27, 39⟩ (.Identifier ⟨27, 33⟩ "APPEND")
       [.Identifier ⟨34, 35⟩ "a", .IntegerLiteral ⟨37, 38⟩ 2])]]

/-- The same loop with a body that does not mutate the iteree. -/
def forDisplayProgram : List Stmt :=
  [.VarAssign ⟨0, 1⟩ "a" (.ArrayLiteral ⟨5, 8⟩ [.IntegerLiteral ⟨6, 7⟩ 1]),
   .For ⟨18, 19⟩ "x" (.Identifier ⟨23, 24⟩ "a")
     [.Expr (.FnCall ⟨27, 37⟩ (.Identifier ⟨27, 34⟩ "DISPLAY")
       [.Identifier ⟨35, 36⟩ "x"])]]

/-- A singleton-environment state binding `a` to the one-element array `[7]`. -/
def c1State : VMState :=
  ⟨[⟨none, [("a", .array 0)]⟩], [[.number 7]], [], [], [], []⟩

/-- A state whose array `a` has `2^32 - 1` elements, all `Number 0`. -/
def hugeState : VMState :=
  ⟨[⟨none, [("a", .array 0)]⟩], [List.replicate (2^32 - 1) (.number 0)], [], [], [], []⟩

/-- A parameterless procedure `f` whose body evaluates the undefined
identifier `z`. -/
def c2Proc : Proc := .mk ⟨0,0⟩ "f" [] [.Expr (.Identifier ⟨9,10⟩ "z")]

def c2State : VMState := ⟨[⟨none, [("f", .procedure c2Proc)]⟩], [], [], [], [], []⟩

/-- `c2State` after the call frame for `f` has been allocated. -/
def c2State2 : VMState :=
  ⟨[⟨none, [("f", .procedure c2Proc)]⟩, ⟨some 0, []⟩], [], [], [], [], []⟩

/-- A state binding `INSERT` to the builtin and `a` to the empty array. -/
def c2BState : VMState :=
  ⟨[⟨none, [("INSERT", .builtin .INSERT), ("a", .array 0)]⟩], [[]], [], [], [], []⟩

/-- A two-environment chain: global env `0` binds `x` and `g`; child env `1`
(parent `0`) binds `y`. -/
def c4State : VMState :=
  ⟨[⟨none, [("x", .number 1), ("g", .number 5)]⟩, ⟨some 0, [("y", .number 2)]⟩],
   [], [], [], [], []⟩

/-! ## Claim C6: no stored exceptions -/

/-- No entry of an environment map holds an `Exception`. -/
def entriesOK (es : List (String × Value)) : Prop := ∀ p ∈ es, p.2.isExn = false

/-- The stored-value invariant: no environment entry and no array element is
an `Exception` value. -/
def ExnFree (s : VMState) : Prop :=
  (∀ eo ∈ s.envs, entriesOK eo.entries) ∧
  (∀ items ∈ s.arrays, ∀ v ∈ items, v.isExn = false)

/-- The invariant holds of the state carried by an evaluation outcome (the
returned value itself may be a transient exception). -/
def resOK {α : Type} : Res α → Prop
  | .ok _ s => ExnFree s
  | .crash => True
  | .timeout => True

/-- For argument lists: additionally, the evaluated argument values
themselves are never exceptions (each element went through `tee!`). -/
def argsOK : Res (Sum Exn (List Value)) → Prop
  | .ok (.inl _) s => ExnFree s
  | .ok (.inr vs) s => ExnFree s ∧ ∀ v ∈ vs, v.isExn = false
  | .crash => True
  | .timeout => True

/-! ### Elementary facts about the scanners -/

theorem runLen_le_length (p : Nat → Bool) (l : List Nat) : runLen p l ≤ l.length := by
  induction l with
  | nil => simp [runLen]
  | cons b rest ih =>
    simp only [runLen, List.length_cons]
    split <;> omega

theorem runLen_take (p : Nat → Bool) (l : List Nat) (m : Nat) :
    runLen p (l.take m) = min (runLen p l) m := by
  induction l generalizing m with
  | nil => simp [runLen]
  | cons b rest ih =>
    cases m with
    | zero => simp [runLen]
    | succ m =>
      simp only [List.take_succ_cons, runLen]
      split
      · rw [ih]; omega
      · omega

theorem sliceBytes_getElem? (buf : List Nat) (a b m : Nat) (h : m < b - a) :
    (sliceBytes buf a b)[m]? = buf[a + m]? := by
  unfold sliceBytes
  rw [List.getElem?_take_of_lt h, List.getElem?_drop]

theorem sliceBytes_getElem?_none (buf : List Nat) (a b m : Nat) (h : b - a ≤ m) :
    (sliceBytes buf a b)[m]? = none := by
  apply List.getElem?_eq_none
  unfold sliceBytes
  have h1 := List.length_take (b - a) (buf.drop a)
  omega

theorem sliceBytes_drop (buf : List Nat) (a b j : Nat) :
    (sliceBytes buf a b).drop j = sliceBytes buf (a + j) b := by
  unfold sliceBytes
  rw [List.drop_take, List.drop_drop]
  have h1 : b - a - j = b - (a + j) := by omega
  rw [h1]

/-- The dispatch either strictly advances the index or (on a byte that starts
no token) returns the index and the previous token unchanged. -/
theorem lexDispatch_progress (buf : List Nat) (tok : Token) (i b : Nat) :
    i < (lexDispatch buf tok i b).1 ∨ lexDispatch buf tok i b = (i, tok) := by
  have hint : ∀ j, j < (integerEnd buf j).1 := by
    intro j
    simp only [integerEnd, floatEnd]
    split <;> omega
  generalize hD : lexDispatch buf tok i b = out
  unfold lexDispatch at hD
  repeat' split at hD
  all_goals subst hD
  all_goals
    first
      | (right; rfl)
      | (left; simp only [identEnd, hexEnd, binEnd, floatEnd, stringEnd]; omega)
      | (left; exact hint _)
      | (left; have h1 := hint (i+1); omega)

/-! ### Unfolding equations for `lexNextAux` -/

theorem lexNextAux_eq_none (buf : List Nat) (tok : Token) (nl : Bool) (i : Nat)
    (h : buf[i]? = none) :
    lexNextAux buf tok nl i =
      { start := i, index := i, buffer := buf, token := .EOF, hasNewlineBefore := nl } := by
  conv_lhs => rw [lexNextAux.eq_def]
  split
  · rfl
  · rename_i b hb
    rw [h] at hb
    exact absurd hb (by simp)

theorem lexNextAux_eq_some (buf : List Nat) (tok : Token) (nl : Bool) (i b : Nat)
    (h : buf[i]? = some b) :
    lexNextAux buf tok nl i =
      (if isNlB b then lexNextAux buf tok true (wsEnd buf i)
       else if isBlankB b then
         match buf[blankEnd buf i]? with
         | some b2 =>
           if isNlB b2 then lexNextAux buf tok true (wsEnd buf (blankEnd buf i))
           else lexNextAux buf tok nl (blankEnd buf i)
         | none => lexNextAux buf tok nl (blankEnd buf i)
       else
         { start := i, index := (lexDispatch buf tok i b).1, buffer := buf,
           token := (lexDispatch buf tok i b).2, hasNewlineBefore := nl }) := by
  conv_lhs => rw [lexNextAux.eq_def]
  split
  · rename_i hb
    rw [h] at hb
    exact absurd hb (by simp)
  · rename_i b' hb
    rw [h] at hb
    obtain rfl : b = b' := by injection hb
    rfl

/-- One `next()` from a position whose byte starts a token: the result is the
dispatch outcome. -/
theorem lexNext_at_token (l : Lexer) (b : Nat)
    (h : l.buffer[l.index]? = some b) (h1 : isNlB b = false) (h2 : isBlankB b = false) :
    lexNext l =
      { start := l.index, index := (lexDispatch l.buffer l.token l.index b).1,
        buffer := l.buffer, token := (lexDispatch l.buffer l.token l.index b).2,
        hasNewlineBefore := false } := by
  rw [lexNext, lexNextAux_eq_some l.buffer l.token false l.index b h]
  rw [if_neg (by simp [h1]), if_neg (by simp [h2])]

/-- One `next()` at end of input: the sticky `EOF` token, index unchanged. -/
theorem lexNext_at_EOF (l : Lexer) (h : l.buffer[l.index]? = none) :
    lexNext l =
      { start := l.index, index := l.index, buffer := l.buffer, token := .EOF,
        hasNewlineBefore := false } := by
  rw [lexNext, lexNextAux_eq_none l.buffer l.token false l.index h]

theorem lexNextAux_trichotomy (buf : List Nat) (tok : Token) (nl : Bool) (i : Nat) :
    i < (lexNextAux buf tok nl i).index ∨ (lexNextAux buf tok nl i).token = .EOF ∨
      ((lexNextAux buf tok nl i).index = i ∧ (lexNextAux buf tok nl i).token = tok) := by
  induction nl, i using lexNextAux.induct buf tok with
  | case1 nl i hb =>
    rw [lexNextAux_eq_none buf tok nl i hb]
    right; left; rfl
  | case2 nl i b hb h1 ih =>
    rw [lexNextAux_eq_some buf tok nl i b hb, if_pos h1]
    have hlt : i < wsEnd buf i := by simp only [wsEnd]; omega
    rcases ih with h | h | ⟨ha, hb2⟩
    · left; omega
    · right; left; exact h
    · left; omega
  | case3 nl i b hb h1 h2 j b2 hj hnl2 ih =>
    have hj2 : buf[blankEnd buf i]? = some b2 := hj
    have hw : i < wsEnd buf (blankEnd buf i) := by
      simp only [wsEnd, blankEnd]; omega
    rw [lexNextAux_eq_some buf tok nl i b hb, if_neg (by simp [h1]), if_pos h2]
    simp only [hj2]
    rw [if_pos hnl2]
    have ih2 : wsEnd buf (blankEnd buf i) < (lexNextAux buf tok true (wsEnd buf (blankEnd buf i))).index ∨
        (lexNextAux buf tok true (wsEnd buf (blankEnd buf i))).token = .EOF ∨
        ((lexNextAux buf tok true (wsEnd buf (blankEnd buf i))).index = wsEnd buf (blankEnd buf i) ∧
          (lexNextAux buf tok true (wsEnd buf (blankEnd buf i))).token = tok) := ih
    rcases ih2 with h | h | ⟨ha, hb2⟩
    · left; omega
    · right; left; exact h
    · left; omega
  | case4 nl i b hb h1 h2 j b2 hj hnl2 ih =>
    have hj2 : buf[blankEnd buf i]? = some b2 := hj
    have hw : i < blankEnd buf i := by simp only [blankEnd]; omega
    rw [lexNextAux_eq_some buf tok nl i b hb, if_neg (by simp [h1]), if_pos h2]
    simp only [hj2]
    rw [if_neg hnl2]
    have ih2 : blankEnd buf i < (lexNextAux buf tok nl (blankEnd buf i)).index ∨
        (lexNextAux buf tok nl (blankEnd buf i)).token = .EOF ∨
        ((lexNextAux buf tok nl (blankEnd buf i)).index = blankEnd buf i ∧
          (lexNextAux buf tok nl (blankEnd buf i)).token = tok) := ih
    rcases ih2 with h | h | ⟨ha, hb2⟩
    · left; omega
    · right; left; exact h
    · left; omega
  | case5 nl i b hb h1 h2 j hj ih =>
    have hj2 : buf[blankEnd buf i]? = none := hj
    have hw : i < blankEnd buf i := by simp only [blankEnd]; omega
    rw [lexNextAux_eq_some buf tok nl i b hb, if_neg (by simp [h1]), if_pos h2]
    simp only [hj2]
    have ih2 : blankEnd buf i < (lexNextAux buf tok nl (blankEnd buf i)).index ∨
        (lexNextAux buf tok nl (blankEnd buf i)).token = .EOF ∨
        ((lexNextAux buf tok nl (blankEnd buf i)).index = blankEnd buf i ∧
          (lexNextAux buf tok nl (blankEnd buf i)).token = tok) := ih
    rcases ih2 with h | h | ⟨ha, hb2⟩
    · left; omega
    · right; left; exact h
    · left; omega
  | case6 nl i b hb h1 h2 =>
    rw [lexNextAux_eq_some buf tok nl i b hb, if_neg (by simp [h1]), if_neg (by simp [h2])]
    rcases lexDispatch_progress buf tok i b with h | h
    · left; exact h
    · right; right
      constructor
      · show (lexDispatch buf tok i b).1 = i
        rw [h]
      · show (lexDispatch buf tok i b).2 = tok
        rw [h]

/-! ### Claim C8: unterminated string literals -/

/-- C8: for a source consisting of the unterminated string literal `"ab`
(bytes `[34, 97, 98]`), `Lexer::next` produces `StringLiteral`, not
`InvalidStringLiteral`: the loop's `InvalidStringLiteral` assignment
(`stringLoopToken`) is dead because `self.token = Token::StringLiteral;`
right after the loop overwrites it.  The claim (and the spec) state the
intended behavior; the code disagrees. -/
theorem C8_unterminated_string_lexes_as_StringLiteral :
    (lexNext (Lexer.new [34, 97, 98])).token = .StringLiteral ∧
    (lexNext (Lexer.new [34, 97, 98])).token ≠ .InvalidStringLiteral ∧
    stringLoopToken [34, 97, 98] 0 = .InvalidStringLiteral := by
  have e1 := lexNext_at_token (Lexer.new [34, 97, 98]) 34 rfl rfl rfl
  rw [e1]
  decide

/-! ### Claim C10: progress of `Lexer::next` -/

/-- C10 counterexample: on the source `x;` the first `next()` yields the
`Identifier` token `x` with the index at the `;`; the second `next()` leaves
both the index and the token unchanged (and not `EOF`), so a driver loop
calling `next()` until `EOF` does not terminate. -/
theorem C10_counterexample_semicolon_no_progress :
    (lexNext (Lexer.new [120, 59])).index = 1 ∧
    (lexNext (Lexer.new [120, 59])).token = .Identifier ∧
    (lexNext (lexNext (Lexer.new [120, 59]))).index = 1 ∧
    (lexNext (lexNext (Lexer.new [120, 59]))).token = .Identifier ∧
    Token.Identifier ≠ Token.EOF := by
  have e1 : lexNext (Lexer.new [120, 59]) =
      { start := 0, index := 1, buffer := [120, 59], token := .Identifier,
        hasNewlineBefore := false } := by
    rw [lexNext_at_token (Lexer.new [120, 59]) 120 rfl rfl rfl]
    decide
  have e2 := lexNext_at_token (lexNext (Lexer.new [120, 59])) 59 (by rw [e1]; rfl) rfl rfl
  rw [e2, e1]
  decide

/-- C10 (amended): each call to `Lexer::next` either strictly advances the
index, or yields the `EOF` token, or — when the byte at the current position
begins no token (for example `;`) — returns with the index and the token both
unchanged.  In the last case a loop that calls `next()` until `EOF` does not
terminate; the unconditional strict-progress claim fails
(`C10_counterexample_semicolon_no_progress`). -/
theorem C10_next_progress_trichotomy (l : Lexer) :
    l.index < (lexNext l).index ∨ (lexNext l).token = .EOF ∨
      ((lexNext l).index = l.index ∧ (lexNext l).token = l.token) :=
  lexNextAux_trichotomy l.buffer l.token false l.index

/-! ### Claim C9: lexing round-trip -/

/-- C9 counterexample: on the source `!=` the lexer produces `NotEqual` with
span `[0,1)` — the `!` arm never consumes the `=` — and the spanned slice
`!` re-lexes as `Equal`, not `NotEqual`. -/
theorem C9_counterexample_NotEqual_span :
    (lexNext (Lexer.new [33, 61])).token = .NotEqual ∧
    (lexNext (Lexer.new [33, 61])).start = 0 ∧
    (lexNext (Lexer.new [33, 61])).index = 1 ∧
    sliceBytes [33, 61] 0 1 = [33] ∧
    (lexNext (Lexer.new [33])).token = .Equal ∧
    Token.Equal ≠ Token.NotEqual := by
  have e1 := lexNext_at_token (Lexer.new [33, 61]) 33 rfl rfl rfl
  have e2 := lexNext_at_token (Lexer.new [33]) 33 rfl rfl rfl
  rw [e1, e2]
  decide

/-! ### Slice transfer lemmas for the scanners -/

theorem sliceBytes_nil (buf : List Nat) (a : Nat) : sliceBytes buf a a = [] := by
  simp [sliceBytes]

theorem runLen_sliceBytes (p : Nat → Bool) (buf : List Nat) (a e j : Nat) (haj : a ≤ j) :
    runLen p ((sliceBytes buf a e).drop (j - a + 1)) =
      min (runLen p (buf.drop (j+1))) (e - (j+1)) := by
  rw [sliceBytes_drop]
  have h1 : a + (j - a + 1) = j + 1 := by omega
  rw [h1]
  unfold sliceBytes
  rw [runLen_take]

/-- Re-scanning an identifier inside its own spanned slice consumes the whole
slice. -/
theorem identEnd_slice (buf : List Nat) (i : Nat) :
    identEnd (sliceBytes buf i (identEnd buf i)) 0 = identEnd buf i - i := by
  have h := runLen_sliceBytes isIdentContB buf i (identEnd buf i) i (le_refl i)
  have h2 : identEnd (sliceBytes buf i (identEnd buf i)) 0
      = 0 + 1 + runLen isIdentContB ((sliceBytes buf i (identEnd buf i)).drop (0+1)) := rfl
  have h3 : i - i + 1 = 0 + 1 := by omega
  rw [h3] at h
  rw [h2, h]
  unfold identEnd
  omega

theorem identEnd_slice_full (buf : List Nat) (i : Nat) :
    sliceBytes (sliceBytes buf i (identEnd buf i)) 0
        (identEnd (sliceBytes buf i (identEnd buf i)) 0)
      = sliceBytes buf i (identEnd buf i) := by
  rw [identEnd_slice]
  unfold sliceBytes
  simp [List.take_take]

/-- The number scanner applied inside the spanned slice yields the same token
(`IntegerLiteral` or `FloatLiteral`). -/
theorem integerEnd_slice_token (buf : List Nat) (a j : Nat) (haj : a ≤ j) :
    (integerEnd (sliceBytes buf a (integerEnd buf j).1) (j - a)).2
      = (integerEnd buf j).2 := by
  have hle : j + 1 + runLen isDigitB (buf.drop (j+1)) ≤ (integerEnd buf j).1 := by
    unfold integerEnd
    split
    · unfold floatEnd
      dsimp only
      omega
    · dsimp only
      omega
  have hrun := runLen_sliceBytes isDigitB buf a (integerEnd buf j).1 j haj
  have LHSeq : integerEnd (sliceBytes buf a (integerEnd buf j).1) (j - a) =
      (if (sliceBytes buf a (integerEnd buf j).1)[j - a + 1 +
            runLen isDigitB ((sliceBytes buf a (integerEnd buf j).1).drop (j - a + 1))]?
          = some 46 then
        (floatEnd (sliceBytes buf a (integerEnd buf j).1)
          (j - a + 1 +
            runLen isDigitB ((sliceBytes buf a (integerEnd buf j).1).drop (j - a + 1))),
         Token.FloatLiteral)
      else
        (j - a + 1 +
          runLen isDigitB ((sliceBytes buf a (integerEnd buf j).1).drop (j - a + 1)),
         Token.IntegerLiteral)) := rfl
  by_cases hdot : buf[j + 1 + runLen isDigitB (buf.drop (j+1))]? = some 46
  · -- float case: the spanned slice still contains the dot after the digits
    have he : (integerEnd buf j).1 = floatEnd buf (j + 1 + runLen isDigitB (buf.drop (j+1))) := by
      unfold integerEnd
      rw [if_pos hdot]
    have hgt : j + 1 + runLen isDigitB (buf.drop (j+1)) < (integerEnd buf j).1 := by
      rw [he]; unfold floatEnd; omega
    have hrun2 : runLen isDigitB ((sliceBytes buf a (integerEnd buf j).1).drop (j - a + 1))
        = runLen isDigitB (buf.drop (j+1)) := by
      rw [hrun]; omega
    have hdot2 : (sliceBytes buf a (integerEnd buf j).1)[j - a + 1 +
        runLen isDigitB ((sliceBytes buf a (integerEnd buf j).1).drop (j - a + 1))]?
        = some 46 := by
      rw [hrun2]
      rw [sliceBytes_getElem? buf a (integerEnd buf j).1 _ (by omega)]
      have harg : a + (j - a + 1 + runLen isDigitB (buf.drop (j+1)))
          = j + 1 + runLen isDigitB (buf.drop (j+1)) := by omega
      rw [harg]
      exact hdot
    rw [LHSeq, if_pos hdot2]
    have ht : (integerEnd buf j).2 = Token.FloatLiteral := by
      unfold integerEnd
      rw [if_pos hdot]
    rw [ht]
  · -- integer case: the slice ends right after the digits
    have he : (integerEnd buf j).1 = j + 1 + runLen isDigitB (buf.drop (j+1)) := by
      unfold integerEnd
      rw [if_neg hdot]
    have hrun2 : runLen isDigitB ((sliceBytes buf a (integerEnd buf j).1).drop (j - a + 1))
        = runLen isDigitB (buf.drop (j+1)) := by
      rw [hrun, he]; omega
    have hdot2 : (sliceBytes buf a (integerEnd buf j).1)[j - a + 1 +
        runLen isDigitB ((sliceBytes buf a (integerEnd buf j).1).drop (j - a + 1))]?
        = none := by
      rw [hrun2]
      apply sliceBytes_getElem?_none
      omega
    rw [LHSeq, if_neg (by rw [hdot2]; simp)]
    have ht : (integerEnd buf j).2 = Token.IntegerLiteral := by
      unfold integerEnd
      rw [if_neg hdot]
    rw [ht]

/-- Reduction of the dispatch at a `0` byte. -/
theorem lexDispatch_48 (s : List Nat) (tk : Token) (ii : Nat) :
    lexDispatch s tk ii 48 =
      (match s[ii+1]? with
       | some b2 =>
         if b2 = 120 ∨ b2 = 88 then (hexEnd s (ii+1), .HexLiteral)
         else if b2 = 98 ∨ b2 = 66 then (binEnd s (ii+1), .BinaryLiteral)
         else if b2 = 46 then (floatEnd s (ii+1), .FloatLiteral)
         else if 49 ≤ b2 ∧ b2 ≤ 57 then integerEnd s (ii+1)
         else (ii+1, .IntegerLiteral)
       | none => (ii+1, .IntegerLiteral)) := rfl

theorem lexDispatch_48_some (s : List Nat) (tk : Token) (ii b2 : Nat)
    (h : s[ii+1]? = some b2) :
    lexDispatch s tk ii 48 =
      (if b2 = 120 ∨ b2 = 88 then (hexEnd s (ii+1), .HexLiteral)
       else if b2 = 98 ∨ b2 = 66 then (binEnd s (ii+1), .BinaryLiteral)
       else if b2 = 46 then (floatEnd s (ii+1), .FloatLiteral)
       else if 49 ≤ b2 ∧ b2 ≤ 57 then integerEnd s (ii+1)
       else (ii+1, .IntegerLiteral)) := by
  rw [lexDispatch_48, h]

theorem lexDispatch_48_none (s : List Nat) (tk : Token) (ii : Nat)
    (h : s[ii+1]? = none) :
    lexDispatch s tk ii 48 = (ii+1, .IntegerLiteral) := by
  rw [lexDispatch_48, h]

/-- Re-lexing the spanned slice of a dispatched token yields the same token,
except for `NotEqual` (excluded by hypothesis: its slice is just `!`, which
re-lexes as `Equal`) and the no-token case (excluded by `i < e`). -/
theorem lexDispatch_slice_token (buf : List Nat) (tok : Token) (i b e : Nat) (t : Token)
    (hD : lexDispatch buf tok i b = (e, t))
    (hne : t ≠ .NotEqual) (hadv : i < e) :
    (lexDispatch (sliceBytes buf i e) .EOF 0 b).2 = t := by
  unfold lexDispatch at hD
  split at hD
  all_goals try (rw [Prod.mk.injEq] at hD)
  · obtain ⟨rfl, rfl⟩ := hD; rfl
  · obtain ⟨rfl, rfl⟩ := hD; rfl
  · obtain ⟨rfl, rfl⟩ := hD; rfl
  · obtain ⟨rfl, rfl⟩ := hD; rfl
  · obtain ⟨rfl, rfl⟩ := hD; rfl
  · obtain ⟨rfl, rfl⟩ := hD; rfl
  · obtain ⟨rfl, rfl⟩ := hD; rfl
  · obtain ⟨rfl, rfl⟩ := hD; rfl
  · obtain ⟨rfl, rfl⟩ := hD; rfl
  · obtain ⟨rfl, rfl⟩ := hD; rfl
  · obtain ⟨rfl, rfl⟩ := hD; rfl
  · obtain ⟨rfl, rfl⟩ := hD; rfl
  · obtain ⟨rfl, rfl⟩ := hD; rfl
  · -- `!`
    obtain ⟨rfl, h2⟩ := hD
    by_cases hq : buf[i+1]? = some 61
    · rw [if_pos hq] at h2
      exact absurd h2.symm hne
    · rw [if_neg hq] at h2
      subst h2
      have hn : (sliceBytes buf i (i+1))[1]? = none :=
        sliceBytes_getElem?_none buf i (i+1) 1 (by omega)
      show (if (sliceBytes buf i (i+1))[0+1]? = some 61 then Token.NotEqual else Token.Equal)
            = Token.Equal
      rw [if_neg (by rw [show (0:Nat)+1 = 1 from rfl, hn]; simp)]
  · -- `>`
    by_cases hq : buf[i+1]? = some 61
    · rw [if_pos hq] at hD
      obtain ⟨rfl, rfl⟩ := hD
      have hs1 : (sliceBytes buf i (i+2))[1]? = buf[i+1]? := by
        rw [sliceBytes_getElem? buf i (i+2) 1 (by omega)]
      show (if (sliceBytes buf i (i+2))[0+1]? = some 61 then ((0:Nat)+2, Token.GreaterEqual)
            else (0+1, Token.Greater)).2 = Token.GreaterEqual
      rw [if_pos (by rw [show (0:Nat)+1 = 1 from rfl, hs1]; exact hq)]
    · rw [if_neg hq] at hD
      obtain ⟨rfl, rfl⟩ := hD
      have hn : (sliceBytes buf i (i+1))[1]? = none :=
        sliceBytes_getElem?_none buf i (i+1) 1 (by omega)
      show (if (sliceBytes buf i (i+1))[0+1]? = some 61 then ((0:Nat)+2, Token.GreaterEqual)
            else (0+1, Token.Greater)).2 = Token.Greater
      rw [if_neg (by rw [show (0:Nat)+1 = 1 from rfl, hn]; simp)]
  · -- `<`
    by_cases hq : buf[i+1]? = some 45
    · rw [if_pos hq] at hD
      obtain ⟨rfl, rfl⟩ := hD
      have hs1 : (sliceBytes buf i (i+2))[1]? = buf[i+1]? := by
        rw [sliceBytes_getElem? buf i (i+2) 1 (by omega)]
      show (if (sliceBytes buf i (i+2))[0+1]? = some 45 then ((0:Nat)+2, Token.ThinArrow)
            else if (sliceBytes buf i (i+2))[0+1]? = some 61 then (0+2, Token.LessEqual)
            else (0+1, Token.Less)).2 = Token.ThinArrow
      rw [if_pos (by rw [show (0:Nat)+1 = 1 from rfl, hs1]; exact hq)]
    · rw [if_neg hq] at hD
      by_cases hq2 : buf[i+1]? = some 61
      · rw [if_pos hq2] at hD
        obtain ⟨rfl, rfl⟩ := hD
        have hs1 : (sliceBytes buf i (i+2))[1]? = buf[i+1]? := by
          rw [sliceBytes_getElem? buf i (i+2) 1 (by omega)]
        show (if (sliceBytes buf i (i+2))[0+1]? = some 45 then ((0:Nat)+2, Token.ThinArrow)
              else if (sliceBytes buf i (i+2))[0+1]? = some 61 then (0+2, Token.LessEqual)
              else (0+1, Token.Less)).2 = Token.LessEqual
        rw [if_neg (by rw [show (0:Nat)+1 = 1 from rfl, hs1]; exact hq),
            if_pos (by rw [show (0:Nat)+1 = 1 from rfl, hs1]; exact hq2)]
      · rw [if_neg hq2] at hD
        obtain ⟨rfl, rfl⟩ := hD
        have hn : (sliceBytes buf i (i+1))[1]? = none :=
          sliceBytes_getElem?_none buf i (i+1) 1 (by omega)
        show (if (sliceBytes buf i (i+1))[0+1]? = some 45 then ((0:Nat)+2, Token.ThinArrow)
              else if (sliceBytes buf i (i+1))[0+1]? = some 61 then (0+2, Token.LessEqual)
              else (0+1, Token.Less)).2 = Token.Less
        rw [if_neg (by rw [show (0:Nat)+1 = 1 from rfl, hn]; simp),
            if_neg (by rw [show (0:Nat)+1 = 1 from rfl, hn]; simp)]
  · -- `"`
    obtain ⟨rfl, rfl⟩ := hD
    rfl
  · -- `0`
    split at hD
    · rename_i b2 hb2
      split_ifs at hD with c1 c2 c3 c4
      · -- 0x / 0X
        obtain ⟨rfl, rfl⟩ := hD
        have hadv2 : i + 1 < hexEnd buf (i+1) := by unfold hexEnd; omega
        have hs1 : (sliceBytes buf i (hexEnd buf (i+1)))[0+1]? = some b2 := by
          rw [show (0:Nat)+1 = 1 from rfl,
              sliceBytes_getElem? buf i (hexEnd buf (i+1)) 1 (by omega)]
          exact hb2
        rw [lexDispatch_48_some _ _ _ b2 hs1, if_pos c1]
      · -- 0b / 0B
        obtain ⟨rfl, rfl⟩ := hD
        have hadv2 : i + 1 < binEnd buf (i+1) := by unfold binEnd; omega
        have hs1 : (sliceBytes buf i (binEnd buf (i+1)))[0+1]? = some b2 := by
          rw [show (0:Nat)+1 = 1 from rfl,
              sliceBytes_getElem? buf i (binEnd buf (i+1)) 1 (by omega)]
          exact hb2
        rw [lexDispatch_48_some _ _ _ b2 hs1, if_neg (by simp [c1]), if_pos c2]
      · -- 0.
        obtain ⟨rfl, rfl⟩ := hD
        have hadv2 : i + 1 < floatEnd buf (i+1) := by unfold floatEnd; omega
        have hs1 : (sliceBytes buf i (floatEnd buf (i+1)))[0+1]? = some b2 := by
          rw [show (0:Nat)+1 = 1 from rfl,
              sliceBytes_getElem? buf i (floatEnd buf (i+1)) 1 (by omega)]
          exact hb2
        rw [lexDispatch_48_some _ _ _ b2 hs1, if_neg (by simp [c1]), if_neg (by simp [c2]),
            if_pos c3]
      · -- 0 then 1-9: the integer scanner
        obtain ⟨rfl, rfl⟩ := hD
        have hadv2 : i + 1 < (integerEnd buf (i+1)).1 := by
          unfold integerEnd
          split
          · unfold floatEnd; dsimp only; omega
          · dsimp only; omega
        have hs1 : (sliceBytes buf i (integerEnd buf (i+1)).1)[0+1]? = some b2 := by
          rw [show (0:Nat)+1 = 1 from rfl,
              sliceBytes_getElem? buf i (integerEnd buf (i+1)).1 1 (by omega)]
          exact hb2
        rw [lexDispatch_48_some _ _ _ b2 hs1, if_neg (by simp [c1]), if_neg (by simp [c2]),
            if_neg (by simp [c3]), if_pos c4]
        have := integerEnd_slice_token buf i (i+1) (by omega)
        rw [show i + 1 - i = 0 + 1 from by omega] at this
        exact this
      · -- 0 then anything else: bare `0`
        obtain ⟨rfl, rfl⟩ := hD
        have hn : (sliceBytes buf i (i+1))[0+1]? = none := by
          rw [show (0:Nat)+1 = 1 from rfl]
          exact sliceBytes_getElem?_none buf i (i+1) 1 (by omega)
        rw [lexDispatch_48_none _ _ _ hn]
    · -- `0` at end of input
      obtain ⟨rfl, rfl⟩ := hD
      have hn : (sliceBytes buf i (i+1))[0+1]? = none := by
        rw [show (0:Nat)+1 = 1 from rfl]
        exact sliceBytes_getElem?_none buf i (i+1) 1 (by omega)
      rw [lexDispatch_48_none _ _ _ hn]
  · -- default arm: identifiers, digits, or no token
    split_ifs at hD with c1 c2
    · -- identifier / keyword
      obtain ⟨rfl, rfl⟩ := hD
      unfold lexDispatch
      split
      any_goals (exfalso; simp_all; done)
      rw [if_pos c1]
      have := identEnd_slice_full buf i
      dsimp only
      rw [this]
    · -- digit 1-9
      obtain ⟨rfl, rfl⟩ := hD
      unfold lexDispatch
      split
      any_goals (exfalso; simp_all; done)
      rw [if_neg (by simp [c1]), if_pos c2]
      have := integerEnd_slice_token buf i i (le_refl i)
      rw [show i - i = 0 from by omega] at this
      exact this
    · -- no token starts here: excluded by `i < e`
      obtain ⟨h1, h2⟩ := hD
      omega

/-- Round-trip for one `next()` call, stated on the `'main` loop: whenever the
call produced a token with a nonempty span (or the sticky `EOF`), and that
token is not `NotEqual`, re-lexing the spanned slice from a fresh lexer
reproduces the token. -/
theorem lexNextAux_relex (buf : List Nat) (tok : Token) (nl : Bool) (i : Nat) :
    (lexNextAux buf tok nl i).token ≠ .NotEqual →
    ((lexNextAux buf tok nl i).start < (lexNextAux buf tok nl i).index ∨
      (lexNextAux buf tok nl i).token = .EOF) →
    (lexNextAux (sliceBytes buf (lexNextAux buf tok nl i).start
        (lexNextAux buf tok nl i).index) .EOF false 0).token
      = (lexNextAux buf tok nl i).token := by
  induction nl, i using lexNextAux.induct buf tok with
  | case1 nl i hb =>
    rw [lexNextAux_eq_none buf tok nl i hb]
    intro _ _
    dsimp only
    rw [sliceBytes_nil]
    rw [lexNextAux_eq_none [] .EOF false 0 (by simp)]
  | case2 nl i b hb h1 ih =>
    rw [lexNextAux_eq_some buf tok nl i b hb, if_pos h1]
    exact ih
  | case3 nl i b hb h1 h2 j b2 hj hnl2 ih =>
    have hj2 : buf[blankEnd buf i]? = some b2 := hj
    rw [lexNextAux_eq_some buf tok nl i b hb, if_neg (by simp [h1]), if_pos h2]
    simp only [hj2]
    rw [if_pos hnl2]
    exact ih
  | case4 nl i b hb h1 h2 j b2 hj hnl2 ih =>
    have hj2 : buf[blankEnd buf i]? = some b2 := hj
    rw [lexNextAux_eq_some buf tok nl i b hb, if_neg (by simp [h1]), if_pos h2]
    simp only [hj2]
    rw [if_neg hnl2]
    exact ih
  | case5 nl i b hb h1 h2 j hj ih =>
    have hj2 : buf[blankEnd buf i]? = none := hj
    rw [lexNextAux_eq_some buf tok nl i b hb, if_neg (by simp [h1]), if_pos h2]
    simp only [hj2]
    exact ih
  | case6 nl i b hb h1 h2 =>
    rw [lexNextAux_eq_some buf tok nl i b hb, if_neg (by simp [h1]), if_neg (by simp [h2])]
    dsimp only
    intro hne hsp
    rcases lexDispatch_progress buf tok i b with hadv | hstay
    · have hs0 : (sliceBytes buf i (lexDispatch buf tok i b).1)[0]? = some b := by
        rw [sliceBytes_getElem? buf i (lexDispatch buf tok i b).1 0 (by omega)]
        simpa using hb
      rw [lexNextAux_eq_some (sliceBytes buf i (lexDispatch buf tok i b).1) .EOF false 0 b hs0,
          if_neg (by simp [h1]), if_neg (by simp [h2])]
      exact lexDispatch_slice_token buf tok i b (lexDispatch buf tok i b).1
        (lexDispatch buf tok i b).2 rfl hne hadv
    · rw [hstay] at hsp ⊢
      dsimp only at hsp ⊢
      rcases hsp with hlt | hEOF
      · omega
      · rw [hEOF, sliceBytes_nil, lexNextAux_eq_none [] .EOF false 0 (by simp)]

/-- C9 (amended): for every token `t` produced by `Lexer::next` with span
`[a, b)`, re-lexing `source[a..b]` as a fresh input reproduces exactly `t`
(keyword versus identifier classification included, since the slice is
byte-identical), EXCEPT for two cases forced by the code: (1) the `NotEqual`
token, whose span covers only the `!` (the `=` is not consumed), so its slice
re-lexes as `Equal` (`C9_counterexample_NotEqual_span`); and (2) a call that
recognized no token (empty span, stale token), excluded by requiring `a < b`
or `t = EOF`. -/
theorem C9_lex_roundtrip_amended (l : Lexer)
    (hne : (lexNext l).token ≠ .NotEqual)
    (hsp : (lexNext l).start < (lexNext l).index ∨ (lexNext l).token = .EOF) :
    (lexNext (Lexer.new (sliceBytes l.buffer (lexNext l).start (lexNext l).index))).token
      = (lexNext l).token :=
  lexNextAux_relex l.buffer l.token false l.index hne hsp

/-- Witness for `C9_lex_roundtrip_amended`: the input `REPEAT 12 <- "ab` —
its four tokens (a keyword, an integer, a thin-arrow, an unterminated string)
all satisfy the round-trip. -/
theorem C9_lex_roundtrip_witness :
    (lexNext (Lexer.new [82, 69, 80, 69, 65, 84])).token = .Keyword .REPEAT ∧
    (lexNext (Lexer.new (sliceBytes [82, 69, 80, 69, 65, 84]
        (lexNext (Lexer.new [82, 69, 80, 69, 65, 84])).start
        (lexNext (Lexer.new [82, 69, 80, 69, 65, 84])).index))).token
      = (lexNext (Lexer.new [82, 69, 80, 69, 65, 84])).token := by
  have e1 := lexNext_at_token (Lexer.new [82, 69, 80, 69, 65, 84]) 82 rfl rfl rfl
  constructor
  · rw [e1]; decide
  · exact C9_lex_roundtrip_amended (Lexer.new [82, 69, 80, 69, 65, 84])
      (by rw [e1]; decide) (by rw [e1]; left; decide)

/-- C3 counterexample: `REPEAT UNTIL (true) { x <- 1 }` terminates with
`Void`, the state unchanged, and `x` never bound — the body was executed
zero times, not at least once: the loop evaluates the condition BEFORE the
body and exits immediately. -/
theorem C3_counterexample_repeat_until_true :
    evalScope 3 repeatUntilTrueProgram 0 (initState [] []) = .ok .void (initState [] []) ∧
    envGet (initState [] []).envs 0 "x" = none :=
  ⟨rfl, rfl⟩

/-- C3 (amended): `REPEAT UNTIL` has while-not semantics.  Each iteration
evaluates the condition FIRST; if it yields `Bool(true)` the loop exits with
`Void` right away — the body is not executed that iteration (in particular,
a condition that is initially true means zero body executions); only when it
yields `Bool(false)` is the body evaluated, and after a `Void` body the loop
re-enters. -/
theorem C3_repeat_until_while_not (fuel : Nat) (cond : Expr) (scope rest : List Stmt)
    (env : Nat) (s s1 : VMState) :
    (evalExpr fuel cond env s = .ok (.bool true) s1 →
      evalScope (fuel + 1 + 1) (.RepeatUntil cond scope :: rest) env s
        = evalScope (fuel + 1) rest env s1) ∧
    (evalExpr fuel cond env s = .ok (.bool false) s1 →
      evalRepeatUntil (fuel + 1) cond scope env s
        = match evalScope fuel scope env s1 with
          | .ok (.exception e) s2 => .ok (some (.exception e)) s2
          | .ok .void s2 => evalRepeatUntil fuel cond scope env s2
          | .ok v s2 => .ok (some v) s2
          | .crash => .crash
          | .timeout => .timeout) := by
  constructor
  · intro h
    show (match evalRepeatUntil (fuel + 1) cond scope env s with
          | .ok none s3 => evalScope (fuel + 1) rest env s3
          | .ok (some v) s3 => .ok v s3
          | .crash => .crash
          | .timeout => .timeout)
        = evalScope (fuel + 1) rest env s1
    rw [show evalRepeatUntil (fuel + 1) cond scope env s = .ok none s1 by
      rw [evalRepeatUntil, h]; rfl]
  · intro h
    rw [evalRepeatUntil, h]
    rfl

/-- Witness for `C3_repeat_until_while_not`: both branches at concrete
inputs (`true`/`false` literal conditions, a body binding `x`). -/
theorem C3_repeat_until_witness :
    evalScope 3 repeatUntilTrueProgram 0 (initState [] []) =
      evalScope 2 [] 0 (initState [] []) ∧
    evalRepeatUntil 2 (.FalseLit 0) [] 0 (initState [] []) =
      match evalScope 1 ([] : List Stmt) 0 (initState [] []) with
      | .ok (.exception e) s2 => .ok (some (.exception e)) s2
      | .ok .void s2 => evalRepeatUntil 1 (.FalseLit 0) [] 0 s2
      | .ok v s2 => .ok (some v) s2
      | .crash => .crash
      | .timeout => .timeout := by
  constructor
  · exact (C3_repeat_until_while_not 1 (.TrueLit 0)
      [.VarAssign ⟨12, 13⟩ "x" (.IntegerLiteral ⟨17, 18⟩ 1)] [] 0
      (initState [] []) (initState [] [])).1 rfl
  · exact (C3_repeat_until_while_not 1 (.FalseLit 0) [] [] 0
      (initState [] []) (initState [] [])).2 rfl

/-- C5: appending to the iterated array inside a FOR EACH body does NOT
complete normally — it aborts the program.  Each iteration holds the shared
`arr.borrow()` across the body, so `APPEND`'s `borrow_mut` on the same array
panics (`GcCell` already immutably borrowed).  The same loop with a
non-mutating body runs exactly the captured number of iterations (here one
`DISPLAY` line).  The claim (and the spec's length-capture property) state
the intended behavior; the code aborts instead. -/
theorem C5_for_append_aborts :
    evalScope 10 forAppendProgram 0 (initState [] []) = .crash ∧
    evalScope 10 forDisplayProgram 0 (initState [] [])
      = .ok .void
          { envs := [⟨none, initEnv.entries ++ [("a", .array 0), ("x", .number 1)]⟩],
            arrays := [[.number 1]], locks := [], output := ["1"], stdin := [], rng := [] } := by
  constructor
  · rfl
  · rfl

/-! ## Claim C7: INSERT bounds -/

/-- C7: `INSERT` rejects index `len + 1`.  On the empty array every insert —
including `INSERT(arr, 1, v)`, the only position — fails with "array index
out of range"; on `[7]`, inserting at `2 = len + 1` (the append position the
spec promises) fails, while the in-range position `1` succeeds.  The bounds
check `correct_idx > items.len()` matches `REMOVE`'s valid range `[1, len]`
instead of insertion's `[1, len + 1]`. -/
theorem C7_insert_rejects_len_plus_one :
    callBuiltin 10 .INSERT [.array 0, .number 1, .number 5]
        { initState [] [] with arrays := [[]] }
      = .ok (.exception ⟨"array index out of range", ⟨0, 0⟩, []⟩)
          { initState [] [] with arrays := [[]] } ∧
    callBuiltin 10 .INSERT [.array 0, .number 2, .number 5]
        { initState [] [] with arrays := [[.number 7]] }
      = .ok (.exception ⟨"array index out of range", ⟨0, 0⟩, []⟩)
          { initState [] [] with arrays := [[.number 7]] } ∧
    callBuiltin 10 .INSERT [.array 0, .number 1, .number 5]
        { initState [] [] with arrays := [[.number 7]] }
      = .ok .void { initState [] [] with arrays := [[.number 5, .number 7]] } := by
  refine ⟨rfl, rfl, rfl⟩

/-! ## Claim C1: 1-based array indexing -/

theorem ratToU32_natCast (k : Nat) : ratToU32 (k : ℚ) = min k (2^32 - 1) := by
  unfold ratToU32
  rw [if_neg (not_lt.mpr (Nat.cast_nonneg k))]
  norm_num
  rfl

theorem usizeSub1_eq (x : Nat) (h1 : 1 ≤ x) (h2 : x < 2^64) : usizeSub1 x = x - 1 := by
  unfold usizeSub1
  omega

theorem usizeSub1_zero : usizeSub1 0 = 2^64 - 1 := by
  unfold usizeSub1
  omega

theorem canBorrow_of_no_locks (s : VMState) (addr : Nat) (h : s.locks = []) :
    canBorrow s addr = true := by
  simp [canBorrow, h]

/-- Reduction of an `Index` evaluation once the array and the index value
are known and no borrow of the array is active. -/
theorem evalExpr_Index_eq (fuel : Nat) (a i : Expr) (sp : Span) (env : Nat)
    (s s1 s2 : VMState) (addr : Nat) (items : List Value) (q : ℚ)
    (ha : evalExpr fuel a env s = .ok (.array addr) s1)
    (hi : evalExpr fuel i env s1 = .ok (.number q) s2)
    (hlk : s2.locks = [])
    (harr : arrGet s2 addr = some items) :
    evalExpr (fuel+1) (.Index sp a i) env s
      = (match items[usizeSub1 (ratToU32 q)]? with
         | some w => .ok w s2
         | none => .ok (.exception ⟨"index " ++ ratDisplay q ++
             " is out of array range (length: " ++ toString items.length ++ ")", sp, []⟩) s2) := by
  show tee (evalExpr fuel a env s) _ = _
  rw [ha]
  show tee (evalExpr fuel i env s1) _ = _
  rw [hi]
  show (if canBorrow s2 addr then _ else _) = _
  rw [if_pos (by rw [canBorrow_of_no_locks s2 addr hlk]), harr]
  rfl

/-- C1 (amended): evaluating `a[i]`, where `a` evaluates to an `Array` of
length `n ≤ 2^32 - 2` with no active borrow and `i` to an integer-valued
`Number`, never aborts: it yields the `k`-th element (1-based) when
`i = k ∈ [1, n]`, an `Exception` when `i = 0` (the `u32 → usize` conversion
wraps `0 - 1` around to `2^64 - 1`, release semantics) and when `i = n + 1`,
and some value in every case.  For `n ≥ 2^32 - 1` the `as u32` truncation
saturates and indexing `n + 1` wrongly returns an element
(`C1_counterexample_u32_saturation`). -/
theorem C1_index_one_based (fuel : Nat) (a i : Expr) (sp : Span) (env : Nat)
    (s s1 s2 : VMState) (addr n : Nat) (items : List Value) (q : ℚ)
    (ha : evalExpr fuel a env s = .ok (.array addr) s1)
    (hi : evalExpr fuel i env s1 = .ok (.number q) s2)
    (hlk : s2.locks = [])
    (harr : arrGet s2 addr = some items)
    (hlen : items.length = n)
    (hbound : n + 2 ≤ 2^32) :
    (∀ k : Nat, 1 ≤ k → k ≤ n → q = (k : ℚ) →
       ∃ v, items[k-1]? = some v ∧
         evalExpr (fuel+1) (.Index sp a i) env s = .ok v s2) ∧
    (q = 0 → ∃ e, evalExpr (fuel+1) (.Index sp a i) env s = .ok (.exception e) s2) ∧
    (q = ((n+1 : Nat) : ℚ) → ∃ e, evalExpr (fuel+1) (.Index sp a i) env s = .ok (.exception e) s2) ∧
    (∃ r, evalExpr (fuel+1) (.Index sp a i) env s = .ok r s2) := by
  have key := evalExpr_Index_eq fuel a i sp env s s1 s2 addr items q ha hi hlk harr
  refine ⟨?_, ?_, ?_, ?_⟩
  · intro k hk1 hkn hq
    subst hq
    have hu : usizeSub1 (ratToU32 (k : ℚ)) = k - 1 := by
      rw [ratToU32_natCast]
      rw [show min k (2^32 - 1) = k from by omega]
      exact usizeSub1_eq k hk1 (by omega)
    rw [hu] at key
    obtain ⟨v, hsome⟩ : ∃ v, items[k-1]? = some v :=
      ⟨_, List.getElem?_eq_getElem (by omega)⟩
    refine ⟨v, hsome, ?_⟩
    rw [key, hsome]
  · intro hq
    subst hq
    have hu : usizeSub1 (ratToU32 (0 : ℚ)) = 2^64 - 1 := by
      rw [show ((0 : ℚ)) = ((0 : Nat) : ℚ) from by norm_num, ratToU32_natCast]
      simp [usizeSub1_zero]
    rw [hu] at key
    have hnone : items[2^64 - 1]? = none := by
      apply List.getElem?_eq_none
      omega
    rw [hnone] at key
    exact ⟨_, key⟩
  · intro hq
    subst hq
    have hu : usizeSub1 (ratToU32 ((n+1 : Nat) : ℚ)) = n := by
      rw [ratToU32_natCast]
      rw [show min (n+1) (2^32 - 1) = n + 1 from by omega]
      rw [usizeSub1_eq (n+1) (by omega) (by omega)]
      omega
    rw [hu] at key
    have hnone : items[n]? = none := by
      apply List.getElem?_eq_none
      omega
    rw [hnone] at key
    exact ⟨_, key⟩
  · rw [key]
    rcases h : items[usizeSub1 (ratToU32 q)]? with _ | w
    · exact ⟨_, rfl⟩
    · exact ⟨w, rfl⟩

theorem C1_index_witness :
    ∃ v, ([Value.number 7])[1-1]? = some v ∧
      evalExpr 2 (.Index ⟨0,4⟩ (.Identifier ⟨0,1⟩ "a") (.IntegerLiteral ⟨2,3⟩ 1)) 0 c1State
        = .ok v c1State :=
  (C1_index_one_based 1 (.Identifier ⟨0,1⟩ "a") (.IntegerLiteral ⟨2,3⟩ 1) ⟨0,4⟩ 0
      c1State c1State c1State 0 1 [Value.number 7] 1
      rfl rfl rfl rfl rfl (by norm_num)).1
    1 (by norm_num) (by norm_num) (by norm_num)

/-- C1 counterexample: with `a` an array of length `2^32 - 1`, the access
`a[2^32]` (one past the end, which the claim says must raise an exception)
instead returns element `2^32 - 2` of the array: `idx as u32` saturates at
`u32::MAX = 2^32 - 1`, and after the `- 1` the position is in range. -/
theorem C1_counterexample_u32_saturation :
    evalExpr 2 (.Index ⟨0,0⟩ (.Identifier ⟨0,0⟩ "a") (.IntegerLiteral ⟨0,0⟩ (2^32))) 0 hugeState
      = .ok (.number 0) hugeState := by
  have key := evalExpr_Index_eq 1 (.Identifier ⟨0,0⟩ "a") (.IntegerLiteral ⟨0,0⟩ (2^32)) ⟨0,0⟩ 0
    hugeState hugeState hugeState 0 (List.replicate (2^32 - 1) (.number 0)) (2^32)
    rfl rfl rfl rfl
  rw [key]
  have h1 : usizeSub1 (ratToU32 ((2^32 : ℚ))) = 2^32 - 2 := by
    rw [show ((2^32 : ℚ)) = (((2^32 : Nat)) : ℚ) from by norm_num, ratToU32_natCast]
    rw [show min (2^32) (2^32 - 1) = 2^32 - 1 from by omega]
    rw [usizeSub1_eq _ (by norm_num) (by norm_num)]
    omega
  rw [h1]
  rw [List.getElem?_replicate]
  rw [if_pos (by norm_num)]

/-! ## Claim C2: exception propagation -/

theorem tee_step (v : Value) (s : VMState) (k : Value → VMState → Res Value)
    (hv : v.isExn = false) : tee (.ok v s) k = k v s := by
  cases v
  case exception e => simp [Value.isExn] at hv
  all_goals rfl

/-- C2: an `Exception` produced by any sub-expression is returned unchanged
from every evaluation position — `Index` (both positions), `UnaryOp`,
`BinaryOp` (left operand for every operator; right operand for `AND` after
a `true` left, for `OR` after a `false` left, and for every other operator
after any non-exception left), `Paren`, array-literal elements, the callee
and the arguments of a call — except at a `FnCall` frame: a user procedure
body's exception is re-returned with the call-site span pushed onto its
`stack`, and a builtin's exception is rewrapped as its message with the
call-site span and an empty stack. -/
theorem C2_exception_propagation
    (fuel env : Nat) (sp : Span) (a i lhs rhs sub calle : Expr) (args : List Expr)
    (uk : UnaryOpKind) (k : BinaryOpKind) (e : Exn) (v : Value)
    (s s1 s2 : VMState) :
    (evalExpr fuel a env s = .ok (.exception e) s1 →
       evalExpr (fuel+1) (.Index sp a i) env s = .ok (.exception e) s1) ∧
    (∀ addr, evalExpr fuel a env s = .ok (.array addr) s1 →
       evalExpr fuel i env s1 = .ok (.exception e) s2 →
       evalExpr (fuel+1) (.Index sp a i) env s = .ok (.exception e) s2) ∧
    (evalExpr fuel sub env s = .ok (.exception e) s1 →
       evalExpr (fuel+1) (.UnaryOp sp uk sub) env s = .ok (.exception e) s1) ∧
    (evalExpr fuel lhs env s = .ok (.exception e) s1 →
       evalExpr (fuel+1) (.BinaryOp k lhs rhs) env s = .ok (.exception e) s1) ∧
    (evalExpr fuel lhs env s = .ok (.bool true) s1 →
       evalExpr fuel rhs env s1 = .ok (.exception e) s2 →
       evalExpr (fuel+1) (.BinaryOp .And lhs rhs) env s = .ok (.exception e) s2) ∧
    (evalExpr fuel lhs env s = .ok (.bool false) s1 →
       evalExpr fuel rhs env s1 = .ok (.exception e) s2 →
       evalExpr (fuel+1) (.BinaryOp .Or lhs rhs) env s = .ok (.exception e) s2) ∧
    (k ≠ .And → k ≠ .Or → v.isExn = false →
       evalExpr fuel lhs env s = .ok v s1 →
       evalExpr fuel rhs env s1 = .ok (.exception e) s2 →
       evalExpr (fuel+1) (.BinaryOp k lhs rhs) env s = .ok (.exception e) s2) ∧
    (evalExpr fuel sub env s = .ok (.exception e) s1 →
       evalExpr (fuel+1) (.Paren sp sub) env s = .ok (.exception e) s1) ∧
    (evalArgs fuel args env s = .ok (.inl e) s1 →
       evalExpr (fuel+1) (.ArrayLiteral sp args) env s = .ok (.exception e) s1) ∧
    (evalExpr fuel sub env s = .ok (.exception e) s1 →
       evalArgs (fuel+1) (sub :: args) env s = .ok (.inl e) s1) ∧
    (v.isExn = false →
       evalExpr fuel sub env s = .ok v s1 →
       evalArgs fuel args env s1 = .ok (.inl e) s2 →
       evalArgs (fuel+1) (sub :: args) env s = .ok (.inl e) s2) ∧
    (evalExpr fuel calle env s = .ok (.exception e) s1 →
       evalExpr (fuel+1) (.FnCall sp calle args) env s = .ok (.exception e) s1) ∧
    (∀ p : Proc, evalExpr fuel calle env s = .ok (.procedure p) s1 →
       args.length = p.params.length →
       evalArgs fuel args env s1 = .ok (.inl e) s2 →
       evalExpr (fuel+1) (.FnCall sp calle args) env s = .ok (.exception e) s2) ∧
    (∀ b : BuiltinName, evalExpr fuel calle env s = .ok (.builtin b) s1 →
       evalArgs fuel args env s1 = .ok (.inl e) s2 →
       evalExpr (fuel+1) (.FnCall sp calle args) env s = .ok (.exception e) s2) ∧
    (∀ (p : Proc) (argv : List Value) (s3 s4 : VMState) (caddr : Nat),
       evalExpr fuel calle env s = .ok (.procedure p) s1 →
       args.length = p.params.length →
       evalArgs fuel args env s1 = .ok (.inr argv) s2 →
       allocEnv s2 ⟨some env, buildParamEntries p.params argv⟩ = (caddr, s3) →
       evalScope fuel p.scope caddr s3 = .ok (.exception e) s4 →
       evalExpr (fuel+1) (.FnCall sp calle args) env s
         = .ok (.exception { e with stack := e.stack ++ [sp] }) s4) ∧
    (∀ (b : BuiltinName) (argv : List Value) (s3 : VMState),
       evalExpr fuel calle env s = .ok (.builtin b) s1 →
       evalArgs fuel args env s1 = .ok (.inr argv) s2 →
       callBuiltin fuel b argv s2 = .ok (.exception e) s3 →
       evalExpr (fuel+1) (.FnCall sp calle args) env s
         = .ok (.exception ⟨e.message, sp, []⟩) s3) := by
  refine ⟨?_, ?_, ?_, ?_, ?_, ?_, ?_, ?_, ?_, ?_, ?_, ?_, ?_, ?_, ?_, ?_⟩
  · intro h
    show tee (evalExpr fuel a env s) _ = _
    rw [h]
    rfl
  · intro addr ha hi
    show tee (evalExpr fuel a env s) _ = _
    rw [ha, tee_step (Value.array addr) s1 _ rfl]
    show tee (evalExpr fuel i env s1) _ = _
    rw [hi]
    rfl
  · intro h
    show tee (evalExpr fuel sub env s) _ = _
    rw [h]
    rfl
  · intro h
    cases k
    all_goals
      show tee (evalExpr fuel lhs env s) _ = _
    all_goals rw [h]
    all_goals rfl
  · intro h1 h2
    show tee (evalExpr fuel lhs env s) _ = _
    rw [h1, tee_step (Value.bool true) s1 _ rfl]
    show tee (evalExpr fuel rhs env s1) _ = _
    rw [h2]
    rfl
  · intro h1 h2
    show tee (evalExpr fuel lhs env s) _ = _
    rw [h1, tee_step (Value.bool false) s1 _ rfl]
    show tee (evalExpr fuel rhs env s1) _ = _
    rw [h2]
    rfl
  · intro hk1 hk2 hv h1 h2
    cases k
    case And => exact absurd rfl hk1
    case Or => exact absurd rfl hk2
    all_goals
      show tee (evalExpr fuel lhs env s) _ = _
    all_goals rw [h1, tee_step v s1 _ hv]
    all_goals
      show tee (evalExpr fuel rhs env s1) _ = _
    all_goals rw [h2]
    all_goals rfl
  · intro h
    show tee (evalExpr fuel sub env s) _ = _
    rw [h]
    rfl
  · intro h
    show (match evalArgs fuel args env s with
          | Res.ok (Sum.inl exn) s9 => Res.ok (Value.exception exn) s9
          | Res.ok (Sum.inr items) s9 =>
            (match allocArray s9 items with
             | (addr, s8) => Res.ok (Value.array addr) s8)
          | Res.crash => Res.crash
          | Res.timeout => Res.timeout) = _
    rw [h]
  · intro h
    show (match evalExpr fuel sub env s with
          | Res.ok (Value.exception exn) s9 => Res.ok (Sum.inl exn) s9
          | Res.ok w s9 =>
            (match evalArgs fuel args env s9 with
             | Res.ok (Sum.inr vs) s8 => Res.ok (Sum.inr (w :: vs)) s8
             | r => r)
          | Res.crash => Res.crash
          | Res.timeout => Res.timeout) = _
    rw [h]
  · intro hv h1 h2
    show (match evalExpr fuel sub env s with
          | Res.ok (Value.exception exn) s9 => Res.ok (Sum.inl exn) s9
          | Res.ok w s9 =>
            (match evalArgs fuel args env s9 with
             | Res.ok (Sum.inr vs) s8 => Res.ok (Sum.inr (w :: vs)) s8
             | r => r)
          | Res.crash => Res.crash
          | Res.timeout => Res.timeout) = _
    rw [h1]
    cases v
    case exception e9 => simp [Value.isExn] at hv
    all_goals (try dsimp only)
    all_goals rw [h2]
    all_goals rfl
  · intro h
    show tee (evalExpr fuel calle env s) _ = _
    rw [h]
    rfl
  · intro p h1 hlen h2
    show tee (evalExpr fuel calle env s) _ = _
    rw [h1, tee_step (Value.procedure p) s1 _ rfl]
    show (if args.length ≠ p.params.length then _ else _) = _
    rw [if_neg (by omega)]
    rw [h2]
  · intro b h1 h2
    show tee (evalExpr fuel calle env s) _ = _
    rw [h1, tee_step (Value.builtin b) s1 _ rfl]
    show (match evalArgs fuel args env s1 with
          | Res.ok (Sum.inl exn) s9 => Res.ok (Value.exception exn) s9
          | Res.ok (Sum.inr argv) s9 =>
            (match callBuiltin fuel b argv s9 with
             | Res.ok (Value.exception e9) s8 => Res.ok (Value.exception ⟨e9.message, sp, []⟩) s8
             | r => r)
          | Res.crash => Res.crash
          | Res.timeout => Res.timeout) = _
    rw [h2]
  · intro p argv s3 s4 caddr h1 hlen h2 h3 h4
    show tee (evalExpr fuel calle env s) _ = _
    rw [h1, tee_step (Value.procedure p) s1 _ rfl]
    show (if args.length ≠ p.params.length then _ else _) = _
    rw [if_neg (by omega)]
    rw [h2]
    show (match allocEnv s2 ⟨some env, buildParamEntries p.params argv⟩ with
          | (caddr9, s9) =>
            (match evalScope fuel p.scope caddr9 s9 with
             | Res.ok (Value.exception e9) s8 =>
               Res.ok (Value.exception { e9 with stack := e9.stack ++ [sp] }) s8
             | r => r)) = _
    rw [h3]
    show (match evalScope fuel p.scope caddr s3 with
          | Res.ok (Value.exception e9) s8 =>
            Res.ok (Value.exception { e9 with stack := e9.stack ++ [sp] }) s8
          | r => r) = _
    rw [h4]
  · intro b argv s3 h1 h2 h3
    show tee (evalExpr fuel calle env s) _ = _
    rw [h1, tee_step (Value.builtin b) s1 _ rfl]
    show (match evalArgs fuel args env s1 with
          | Res.ok (Sum.inl exn) s9 => Res.ok (Value.exception exn) s9
          | Res.ok (Sum.inr argv9) s9 =>
            (match callBuiltin fuel b argv9 s9 with
             | Res.ok (Value.exception e9) s8 => Res.ok (Value.exception ⟨e9.message, sp, []⟩) s8
             | r => r)
          | Res.crash => Res.crash
          | Res.timeout => Res.timeout) = _
    rw [h2]
    show (match callBuiltin fuel b argv s2 with
          | Res.ok (Value.exception e9) s8 => Res.ok (Value.exception ⟨e9.message, sp, []⟩) s8
          | r => r) = _
    rw [h3]

theorem C2_propagation_witness :
    (evalExpr 3 (.Index ⟨0,4⟩ (.Identifier ⟨0,1⟩ "z") (.IntegerLiteral ⟨2,3⟩ 1)) 0
        (initState [] [])
      = .ok (.exception ⟨sq ++ "z" ++ sq ++ " is not defined", ⟨0,1⟩, []⟩)
          (initState [] [])) ∧
    (evalExpr 3 (.FnCall ⟨0,3⟩ (.Identifier ⟨0,1⟩ "f") []) 0 c2State
      = .ok (.exception ⟨sq ++ "z" ++ sq ++ " is not defined", ⟨9,10⟩, [⟨0,3⟩]⟩) c2State2) ∧
    (evalExpr 11 (.FnCall ⟨0,13⟩ (.Identifier ⟨0,6⟩ "INSERT")
        [.Identifier ⟨7,8⟩ "a", .IntegerLiteral ⟨9,10⟩ 1, .IntegerLiteral ⟨11,12⟩ 5]) 0 c2BState
      = .ok (.exception ⟨"array index out of range", ⟨0,13⟩, []⟩) c2BState) := by
  refine ⟨?_, ?_, ?_⟩
  · exact (C2_exception_propagation 2 0 ⟨0,4⟩ (.Identifier ⟨0,1⟩ "z")
      (.IntegerLiteral ⟨2,3⟩ 1) .Void .Void .Void .Void [] .Not .Add
      ⟨sq ++ "z" ++ sq ++ " is not defined", ⟨0,1⟩, []⟩ .void
      (initState [] []) (initState [] []) (initState [] [])).1 rfl
  · exact (C2_exception_propagation 2 0 ⟨0,3⟩ .Void .Void .Void .Void .Void
      (.Identifier ⟨0,1⟩ "f") [] .Not .Add
      ⟨sq ++ "z" ++ sq ++ " is not defined", ⟨9,10⟩, []⟩ .void
      c2State c2State c2State).2.2.2.2.2.2.2.2.2.2.2.2.2.2.1
      c2Proc [] c2State2 c2State2 1 rfl rfl rfl rfl rfl
  · exact (C2_exception_propagation 10 0 ⟨0,13⟩ .Void .Void .Void .Void .Void
      (.Identifier ⟨0,6⟩ "INSERT")
      [.Identifier ⟨7,8⟩ "a", .IntegerLiteral ⟨9,10⟩ 1, .IntegerLiteral ⟨11,12⟩ 5]
      .Not .Add ⟨"array index out of range", ⟨0,0⟩, []⟩ .void
      c2BState c2BState c2BState).2.2.2.2.2.2.2.2.2.2.2.2.2.2.2
      .INSERT [.array 0, .number 1, .number 5] c2BState rfl rfl rfl

/-! ## Claim C4: VarAssign walk and creation site -/

theorem lookup_insertEntry_self (es : List (String × Value)) (name : String) (v : Value) :
    lookupEntry (insertEntry es name v) name = some v := by
  induction es with
  | nil => simp [insertEntry, lookupEntry]
  | cons hd tl ih =>
    obtain ⟨k, w⟩ := hd
    by_cases h : k = name
    · simp [insertEntry, lookupEntry, h]
    · simp [insertEntry, lookupEntry, h, ih]

theorem lookup_insertEntry_ne (es : List (String × Value)) (name m : String) (v : Value)
    (h : m ≠ name) :
    lookupEntry (insertEntry es name v) m = lookupEntry es m := by
  induction es with
  | nil => simp [insertEntry, lookupEntry, Ne.symm h]
  | cons hd tl ih =>
    obtain ⟨k, w⟩ := hd
    by_cases hk : k = name
    · subst hk
      simp [insertEntry, lookupEntry, Ne.symm h]
    · simp [insertEntry, lookupEntry, hk, ih]

/-- C4: `name <- value` evaluates the right-hand side first (an exception
from it is returned with no binding touched); on a value it continues with
`setVar`, which overwrites in place at the nearest environment `a` on the
parent chain that already binds `name` (all other environments unchanged,
other bindings of `a` unchanged), and when no environment on the chain binds
`name` it creates the binding in the environment `env` that was passed to
`eval_scope` for this statement — not in the global environment (every
address other than `env` is unchanged). -/
theorem C4_var_assign (fuel env : Nat) (nsp : Span) (name : String) (value : Expr)
    (rest : List Stmt) (e : Exn) (v : Value) (s s1 : VMState) (a : Nat) (eo : EnvObj) :
    (evalExpr fuel value env s = .ok (.exception e) s1 →
       evalScope (fuel+1) (.VarAssign nsp name value :: rest) env s = .ok (.exception e) s1) ∧
    (v.isExn = false → evalExpr fuel value env s = .ok v s1 →
       evalScope (fuel+1) (.VarAssign nsp name value :: rest) env s
         = evalScope fuel rest env (setVar s1 env name v)) ∧
    (assignLoc s.envs env name = some a → s.envs[a]? = some eo →
       (setVar s env name v).envs[a]?
           = some { eo with entries := insertEntry eo.entries name v } ∧
       (∀ b, b ≠ a → (setVar s env name v).envs[b]? = s.envs[b]?) ∧
       lookupEntry (insertEntry eo.entries name v) name = some v ∧
       (∀ m, m ≠ name →
          lookupEntry (insertEntry eo.entries name v) m = lookupEntry eo.entries m)) ∧
    (assignLoc s.envs env name = none → s.envs[env]? = some eo →
       (setVar s env name v).envs[env]?
           = some { eo with entries := insertEntry eo.entries name v } ∧
       (∀ b, b ≠ env → (setVar s env name v).envs[b]? = s.envs[b]?) ∧
       lookupEntry (insertEntry eo.entries name v) name = some v) := by
  refine ⟨?_, ?_, ?_, ?_⟩
  · intro h
    show tee (evalExpr fuel value env s) _ = _
    rw [h]
    rfl
  · intro hv h
    show tee (evalExpr fuel value env s) _ = _
    rw [h, tee_step v s1 _ hv]
  · intro hloc henv
    have ha : a < s.envs.length := by
      by_contra hle
      rw [List.getElem?_eq_none (by omega)] at henv
      exact Option.noConfusion henv
    simp only [setVar, hloc, updateEnvEntries, henv]
    refine ⟨?_, ?_, lookup_insertEntry_self eo.entries name v,
            fun m hm => lookup_insertEntry_ne eo.entries name m v hm⟩
    · exact List.getElem?_set_eq ha
    · intro b hb
      exact List.getElem?_set_ne (Ne.symm hb)
  · intro hloc henv
    have ha : env < s.envs.length := by
      by_contra hle
      rw [List.getElem?_eq_none (by omega)] at henv
      exact Option.noConfusion henv
    simp only [setVar, hloc, updateEnvEntries, henv]
    refine ⟨?_, ?_, lookup_insertEntry_self eo.entries name v⟩
    · exact List.getElem?_set_eq ha
    · intro b hb
      exact List.getElem?_set_ne (Ne.symm hb)

theorem C4_var_assign_witness :
    (evalScope 2 [.VarAssign ⟨0,1⟩ "w" (.Identifier ⟨5,6⟩ "z")] 1 c4State
       = .ok (.exception ⟨sq ++ "z" ++ sq ++ " is not defined", ⟨5,6⟩, []⟩) c4State) ∧
    (evalScope 2 [.VarAssign ⟨0,1⟩ "x" (.IntegerLiteral ⟨5,6⟩ 7)] 1 c4State
       = evalScope 1 [] 1 (setVar c4State 1 "x" (.number 7))) ∧
    ((setVar c4State 1 "x" (.number 7)).envs[0]?
       = some ⟨none, insertEntry [("x", .number 1), ("g", .number 5)] "x" (.number 7)⟩) ∧
    ((setVar c4State 1 "x" (.number 7)).envs[1]? = c4State.envs[1]?) ∧
    ((setVar c4State 1 "w" (.number 7)).envs[1]?
       = some ⟨some 0, insertEntry [("y", .number 2)] "w" (.number 7)⟩) ∧
    ((setVar c4State 1 "w" (.number 7)).envs[0]? = c4State.envs[0]?) := by
  refine ⟨?_, ?_, ?_, ?_, ?_, ?_⟩
  · exact (C4_var_assign 1 1 ⟨0,1⟩ "w" (.Identifier ⟨5,6⟩ "z") []
      ⟨sq ++ "z" ++ sq ++ " is not defined", ⟨5,6⟩, []⟩ .void c4State c4State 0
      ⟨none, []⟩).1 rfl
  · exact (C4_var_assign 1 1 ⟨0,1⟩ "x" (.IntegerLiteral ⟨5,6⟩ 7) []
      ⟨"", ⟨0,0⟩, []⟩ (.number 7) c4State c4State 0 ⟨none, []⟩).2.1 rfl rfl
  · exact ((C4_var_assign 1 1 ⟨0,1⟩ "x" (.IntegerLiteral ⟨5,6⟩ 7) []
      ⟨"", ⟨0,0⟩, []⟩ (.number 7) c4State c4State 0
      ⟨none, [("x", .number 1), ("g", .number 5)]⟩).2.2.1 rfl rfl).1
  · exact ((C4_var_assign 1 1 ⟨0,1⟩ "x" (.IntegerLiteral ⟨5,6⟩ 7) []
      ⟨"", ⟨0,0⟩, []⟩ (.number 7) c4State c4State 0
      ⟨none, [("x", .number 1), ("g", .number 5)]⟩).2.2.1 rfl rfl).2.1 1 (by decide)
  · exact ((C4_var_assign 1 1 ⟨0,1⟩ "w" (.IntegerLiteral ⟨5,6⟩ 7) []
      ⟨"", ⟨0,0⟩, []⟩ (.number 7) c4State c4State 0
      ⟨some 0, [("y", .number 2)]⟩).2.2.2 rfl rfl).1
  · exact ((C4_var_assign 1 1 ⟨0,1⟩ "w" (.IntegerLiteral ⟨5,6⟩ 7) []
      ⟨"", ⟨0,0⟩, []⟩ (.number 7) c4State c4State 0
      ⟨some 0, [("y", .number 2)]⟩).2.2.2 rfl rfl).2.1 0 (by decide)

theorem mem_insertEntry (es : List (String × Value)) (name : String) (v : Value)
    (p : String × Value) (hp : p ∈ insertEntry es name v) : p ∈ es ∨ p.2 = v := by
  induction es with
  | nil =>
    simp [insertEntry] at hp
    right
    rw [hp]
  | cons hd tl ih =>
    obtain ⟨k, w⟩ := hd
    by_cases h : k = name
    · rw [insertEntry, if_pos h] at hp
      rcases List.mem_cons.mp hp with rfl | hp2
      · right
        rfl
      · exact Or.inl (List.mem_cons_of_mem _ hp2)
    · rw [insertEntry, if_neg h] at hp
      rcases List.mem_cons.mp hp with rfl | hp2
      · exact Or.inl (List.mem_cons_self _ _)
      · rcases ih hp2 with h2 | h2
        · exact Or.inl (List.mem_cons_of_mem _ h2)
        · exact Or.inr h2

theorem entriesOK_insertEntry (es : List (String × Value)) (name : String) (v : Value)
    (hes : entriesOK es) (hv : v.isExn = false) : entriesOK (insertEntry es name v) := by
  intro p hp
  rcases mem_insertEntry es name v p hp with h | h
  · exact hes p h
  · rw [h]
    exact hv

theorem ExnFree_updateEnvEntries (s : VMState) (addr : Nat)
    (f : List (String × Value) → List (String × Value)) (hs : ExnFree s)
    (hf : ∀ es, entriesOK es → entriesOK (f es)) :
    ExnFree (updateEnvEntries s addr f) := by
  rw [updateEnvEntries]
  rcases h : s.envs[addr]? with _ | eo
  · exact hs
  · refine ⟨?_, hs.2⟩
    intro eo2 h2
    rcases List.mem_or_eq_of_mem_set h2 with h3 | h3
    · exact hs.1 eo2 h3
    · rw [h3]
      exact hf eo.entries (hs.1 eo (List.getElem?_mem h))

theorem ExnFree_setVar (s : VMState) (env : Nat) (name : String) (v : Value)
    (hs : ExnFree s) (hv : v.isExn = false) : ExnFree (setVar s env name v) := by
  rw [setVar]
  rcases h : assignLoc s.envs env name with _ | a
  · exact ExnFree_updateEnvEntries s env (fun es => insertEntry es name v) hs
      (fun es hes => entriesOK_insertEntry es name v hes hv)
  · exact ExnFree_updateEnvEntries s a (fun es => insertEntry es name v) hs
      (fun es hes => entriesOK_insertEntry es name v hes hv)

theorem ExnFree_arrSet (s : VMState) (addr : Nat) (items : List Value)
    (hs : ExnFree s) (hit : ∀ v ∈ items, v.isExn = false) :
    ExnFree (arrSet s addr items) := by
  refine ⟨hs.1, ?_⟩
  intro its h2
  rcases List.mem_or_eq_of_mem_set h2 with h3 | h3
  · exact hs.2 its h3
  · rw [h3]
    exact hit

theorem ExnFree_allocArray (s : VMState) (items : List Value)
    (hs : ExnFree s) (hit : ∀ v ∈ items, v.isExn = false) :
    ExnFree (allocArray s items).2 := by
  refine ⟨hs.1, ?_⟩
  intro its h2
  rcases List.mem_append.mp h2 with h3 | h3
  · exact hs.2 its h3
  · rw [List.mem_singleton.mp h3]
    exact hit

theorem ExnFree_allocEnv (s : VMState) (eo : EnvObj)
    (hs : ExnFree s) (heo : entriesOK eo.entries) :
    ExnFree (allocEnv s eo).2 := by
  refine ⟨?_, hs.2⟩
  intro eo2 h2
  rcases List.mem_append.mp h2 with h3 | h3
  · exact hs.1 eo2 h3
  · rw [List.mem_singleton.mp h3]
    exact heo

theorem entriesOK_foldl_insert (l : List ((Span × String) × Value))
    (acc : List (String × Value)) (hacc : entriesOK acc)
    (hl : ∀ pv ∈ l, pv.2.isExn = false) :
    entriesOK (l.foldl (fun acc pv => insertEntry acc pv.1.2 pv.2) acc) := by
  induction l generalizing acc with
  | nil => exact hacc
  | cons hd tl ih =>
    exact ih (insertEntry acc hd.1.2 hd.2)
      (entriesOK_insertEntry acc hd.1.2 hd.2 hacc (hl hd (List.mem_cons_self _ _)))
      (fun pv hpv => hl pv (List.mem_cons_of_mem _ hpv))

theorem entriesOK_buildParamEntries (params : List (Span × String)) (argv : List Value)
    (hargv : ∀ v ∈ argv, v.isExn = false) :
    entriesOK (buildParamEntries params argv) := by
  rw [buildParamEntries]
  refine entriesOK_foldl_insert _ _ (fun p hp => absurd hp (List.not_mem_nil p)) ?_
  intro pv hpv
  exact hargv pv.2 (List.mem_zip hpv).2

theorem renderOK (fuel : Nat) :
    (∀ s v, ExnFree s → resOK (renderValue fuel s v)) ∧
    (∀ s items, ExnFree s → resOK (renderItems fuel s items)) ∧
    (∀ s v, ExnFree s → resOK (renderDebug fuel s v)) := by
  induction fuel with
  | zero => exact ⟨fun s v hs => trivial, fun s items hs => trivial, fun s v hs => trivial⟩
  | succ fuel ih =>
    refine ⟨?_, ?_, ?_⟩
    · intro s v hs
      cases v
      case exception e => trivial
      case array addr =>
        show resOK (if canBorrow s addr then _ else _)
        split
        · split
          · next items heq =>
            split
            · next inner s1 heq2 =>
              have h2 := ih.2.1 s items hs
              rw [heq2] at h2
              exact h2
            · trivial
            · trivial
          · trivial
        · trivial
      all_goals exact hs
    · intro s items hs
      rcases items with _ | ⟨v, _ | ⟨w, rest⟩⟩
      · exact hs
      · exact ih.2.2 s v hs
      · show resOK (match renderDebug fuel s v with
          | Res.ok str s1 =>
            (match renderItems fuel s1 (w :: rest) with
             | Res.ok str2 s2 => Res.ok (str ++ ", " ++ str2) s2
             | Res.crash => Res.crash
             | Res.timeout => Res.timeout)
          | Res.crash => Res.crash
          | Res.timeout => Res.timeout)
        split
        · next str s1 heq =>
          have h1 := ih.2.2 s v hs
          rw [heq] at h1
          split
          · next str2 s2 heq2 =>
            have h2 := ih.2.1 s1 (w :: rest) h1
            rw [heq2] at h2
            exact h2
          · trivial
          · trivial
        · trivial
        · trivial
    · intro s v hs
      cases v
      case string str => exact hs
      all_goals exact ih.1 s _ hs

theorem eqOK (fuel : Nat) :
    (∀ s a b, ExnFree s → resOK (valueEqF fuel s a b)) ∧
    (∀ s xs ys, ExnFree s → resOK (listEqF fuel s xs ys)) := by
  induction fuel with
  | zero => exact ⟨fun s a b hs => trivial, fun s xs ys hs => trivial⟩
  | succ fuel ih =>
    refine ⟨?_, ?_⟩
    · intro s a b hs
      cases a <;> cases b
      case array.array l r =>
        show resOK (if canBorrow s l ∧ canBorrow s r then _ else _)
        split
        · split
          · next il ir heq1 heq2 => exact ih.2 s il ir hs
          · trivial
        · trivial
      all_goals exact hs
    · intro s xs ys hs
      rcases xs with _ | ⟨x, xs⟩ <;> rcases ys with _ | ⟨y, ys⟩
      · exact hs
      · exact hs
      · exact hs
      · show resOK (match valueEqF fuel s x y with
          | Res.ok true s1 => listEqF fuel s1 xs ys
          | Res.ok false s1 => Res.ok false s1
          | Res.crash => Res.crash
          | Res.timeout => Res.timeout)
        split
        · next s1 heq =>
          have h1 := ih.1 s x y hs
          rw [heq] at h1
          exact ih.2 s1 xs ys h1
        · next s1 heq =>
          have h1 := ih.1 s x y hs
          rw [heq] at h1
          exact h1
        · trivial
        · trivial

theorem displayOK (fuel : Nat) : ∀ s args, ExnFree s → resOK (displayHelper fuel s args) := by
  induction fuel with
  | zero => intro s args hs; trivial
  | succ fuel ih =>
    intro s args hs
    rcases args with _ | ⟨a, _ | ⟨b, rest⟩⟩
    · exact hs
    · exact (renderOK fuel).1 s a hs
    · show resOK (match renderValue fuel s a with
        | Res.ok str s1 =>
          (match displayHelper fuel s1 (b :: rest) with
           | Res.ok str2 s2 => Res.ok (str ++ " " ++ str2) s2
           | Res.crash => Res.crash
           | Res.timeout => Res.timeout)
        | Res.crash => Res.crash
        | Res.timeout => Res.timeout)
      split
      · next str s1 heq =>
        have h1 := (renderOK fuel).1 s a hs
        rw [heq] at h1
        split
        · next str2 s2 heq2 =>
          have h2 := ih s1 (b :: rest) h1
          rw [heq2] at h2
          exact h2
        · trivial
        · trivial
      · trivial
      · trivial

theorem inputReadOK (s : VMState) (hs : ExnFree s) : resOK (callBuiltin.inputRead s) := by
  rw [callBuiltin.inputRead]
  split <;> exact hs

theorem builtinOK (fuel : Nat) (b : BuiltinName) (args : List Value) (s : VMState)
    (hs : ExnFree s) (hargs : ∀ v ∈ args, v.isExn = false) :
    resOK (callBuiltin fuel b args s) := by
  cases b
  case DISPLAY =>
    show resOK (match displayHelper fuel s args with
      | Res.ok str s1 => Res.ok Value.void { s1 with output := s1.output ++ [str] }
      | Res.crash => Res.crash
      | Res.timeout => Res.timeout)
    split
    · next str s1 heq =>
      have h1 := displayOK fuel s args hs
      rw [heq] at h1
      exact h1
    · trivial
    · trivial
  case INPUT =>
    rcases args with _ | ⟨a, rest⟩
    · exact inputReadOK { s with output := s.output ++ ["Input: "] } hs
    · show resOK (match displayHelper fuel s (a :: rest) with
        | Res.ok str s1 => callBuiltin.inputRead { s1 with output := s1.output ++ [str ++ " "] }
        | Res.crash => Res.crash
        | Res.timeout => Res.timeout)
      split
      · next str s1 heq =>
        have h1 := displayOK fuel s (a :: rest) hs
        rw [heq] at h1
        exact inputReadOK _ h1
      · trivial
      · trivial
  case RANDOM =>
    simp only [callBuiltin]
    split
    · split
      · trivial
      · split
        · exact hs
        · exact hs
    · exact hs
  case APPEND =>
    simp only [callBuiltin]
    split
    · next addr h0 =>
      split
      · next val h1 =>
        split
        · split
          · next items harr =>
            refine ExnFree_arrSet s addr _ hs ?_
            intro v hv
            rcases List.mem_append.mp hv with h | h
            · exact hs.2 items (List.getElem?_mem harr) v h
            · rw [List.mem_singleton.mp h]
              exact hargs val (List.getElem?_mem h1)
          · trivial
        · trivial
      · exact hs
    · exact hs
  case INSERT =>
    simp only [callBuiltin]
    split
    · next addr h0 =>
      split
      · next idx h1 =>
        split
        · next val h2 =>
          split
          · exact hs
          · split
            · split
              · next items harr =>
                split
                · exact hs
                · refine ExnFree_arrSet s addr _ hs ?_
                  intro v hv
                  rcases List.mem_append.mp hv with h | h
                  · exact hs.2 items (List.getElem?_mem harr) v (List.mem_of_mem_take h)
                  · rcases List.mem_cons.mp h with rfl | h3
                    · exact hargs v (List.getElem?_mem h2)
                    · exact hs.2 items (List.getElem?_mem harr) v (List.mem_of_mem_drop h3)
              · trivial
            · trivial
        · exact hs
      · exact hs
    · exact hs
  case REMOVE =>
    simp only [callBuiltin]
    split
    · next addr h0 =>
      split
      · next idx h1 =>
        split
        · exact hs
        · split
          · split
            · next items harr =>
              split
              · exact hs
              · refine ExnFree_arrSet s addr _ hs ?_
                intro v hv
                rcases List.mem_append.mp hv with h | h
                · exact hs.2 items (List.getElem?_mem harr) v (List.mem_of_mem_take h)
                · exact hs.2 items (List.getElem?_mem harr) v (List.mem_of_mem_drop h)
            · trivial
          · trivial
      · exact hs
    · exact hs
  case LENGTH =>
    simp only [callBuiltin]
    split
    · next addr h0 =>
      split
      · split
        · exact hs
        · trivial
      · trivial
    · exact hs

theorem resOK_tee (r : Res Value) (k : Value → VMState → Res Value)
    (hr : resOK r)
    (hk : ∀ v s, v.isExn = false → ExnFree s → resOK (k v s)) :
    resOK (tee r k) := by
  cases r with
  | ok v s =>
    cases v
    case exception e => exact hr
    all_goals exact hk _ s rfl hr
  | crash => trivial
  | timeout => trivial

theorem evalOK (fuel : Nat) :
    (∀ e env s, ExnFree s → resOK (evalExpr fuel e env s)) ∧
    (∀ es env s, ExnFree s → argsOK (evalArgs fuel es env s)) ∧
    (∀ stmts env s, ExnFree s → resOK (evalScope fuel stmts env s)) ∧
    (∀ eis els env s, ExnFree s → resOK (evalElseIfs fuel eis els env s)) ∧
    (∀ n scope env s, ExnFree s → resOK (evalRepeatN fuel n scope env s)) ∧
    (∀ cond scope env s, ExnFree s → resOK (evalRepeatUntil fuel cond scope env s)) ∧
    (∀ addr al scope env i len s, ExnFree s → resOK (evalFor fuel addr al scope env i len s)) := by
  induction fuel with
  | zero =>
    exact ⟨fun _ _ _ _ => trivial, fun _ _ _ _ => trivial, fun _ _ _ _ => trivial,
           fun _ _ _ _ _ => trivial, fun _ _ _ _ _ => trivial, fun _ _ _ _ _ => trivial,
           fun _ _ _ _ _ _ _ _ => trivial⟩
  | succ fuel ih =>
    obtain ⟨ihE, ihA, ihS, ihEI, ihRN, ihRU, ihF⟩ := ih
    refine ⟨?_, ?_, ?_, ?_, ?_, ?_, ?_⟩
    · intro e env s hs
      cases e
      case Void => trivial
      case BinaryLiteral sp => trivial
      case HexLiteral sp => trivial
      case TrueLit st => exact hs
      case FalseLit st => exact hs
      case IntegerLiteral sp q => exact hs
      case FloatLiteral sp q => exact hs
      case StringLiteral sp c => exact hs
      case Identifier sp name =>
        dsimp only [evalExpr]
        rcases h : envGet s.envs env name with _ | v <;> exact hs
      case Index sp value index =>
        refine resOK_tee _ _ (ihE value env s hs) ?_
        intro v s1 hv hs1
        cases v
        case array addr =>
          refine resOK_tee _ _ (ihE index env s1 hs1) ?_
          intro iv s2 hiv hs2
          cases iv
          case number idx =>
            (try dsimp only)
            cases hcb : canBorrow s2 addr
            · trivial
            · (try dsimp only)
              rcases harr : arrGet s2 addr with _ | items
              · trivial
              · (try dsimp only)
                rcases hw : items[usizeSub1 (ratToU32 idx)]? with _ | w <;> exact hs2
          all_goals exact hs2
        all_goals exact hs1
      case UnaryOp sp kind value =>
        refine resOK_tee _ _ (ihE value env s hs) ?_
        intro v s1 hv hs1
        cases kind <;> cases v <;> exact hs1
      case Paren sp value =>
        refine resOK_tee _ _ (ihE value env s hs) ?_
        intro v s1 hv hs1
        exact hs1
      case ArrayLiteral sp values =>
        dsimp only [evalExpr]
        have h1 := ihA values env s hs
        rcases hargs2 : evalArgs fuel values env s with ⟨exn | items, s1⟩ | _ | _
        · rw [hargs2] at h1
          exact h1
        · rw [hargs2] at h1
          exact ExnFree_allocArray s1 items h1.1 h1.2
        · trivial
        · trivial
      case BinaryOp kind lhs rhs =>
        cases kind
        case And =>
          refine resOK_tee _ _ (ihE lhs env s hs) ?_
          intro lv s1 hlv hs1
          cases lv
          case bool b =>
            (try dsimp only)
            cases b
            · exact hs1
            · refine resOK_tee _ _ (ihE rhs env s1 hs1) ?_
              intro rv s2 hrv hs2
              cases rv <;> exact hs2
          all_goals exact hs1
        case Or =>
          refine resOK_tee _ _ (ihE lhs env s hs) ?_
          intro lv s1 hlv hs1
          cases lv
          case bool b =>
            (try dsimp only)
            cases b
            · refine resOK_tee _ _ (ihE rhs env s1 hs1) ?_
              intro rv s2 hrv hs2
              cases rv <;> exact hs2
            · exact hs1
          all_goals exact hs1
        case Equal =>
          refine resOK_tee _ _ (ihE lhs env s hs) ?_
          intro lv s1 hlv hs1
          refine resOK_tee _ _ (ihE rhs env s1 hs1) ?_
          intro rv s2 hrv hs2
          (try dsimp only)
          have h3 := (eqOK fuel).1 s2 lv rv hs2
          rcases heq : valueEqF fuel s2 lv rv with ⟨b2, s3⟩ | _ | _
          · rw [heq] at h3
            exact h3
          · trivial
          · trivial
        case NotEqual =>
          refine resOK_tee _ _ (ihE lhs env s hs) ?_
          intro lv s1 hlv hs1
          refine resOK_tee _ _ (ihE rhs env s1 hs1) ?_
          intro rv s2 hrv hs2
          (try dsimp only)
          have h3 := (eqOK fuel).1 s2 lv rv hs2
          rcases heq : valueEqF fuel s2 lv rv with ⟨b2, s3⟩ | _ | _
          · rw [heq] at h3
            exact h3
          · trivial
          · trivial
        all_goals refine resOK_tee _ _ (ihE lhs env s hs) ?_
        all_goals intro lv s1 hlv hs1
        all_goals refine resOK_tee _ _ (ihE rhs env s1 hs1) ?_
        all_goals intro rv s2 hrv hs2
        all_goals cases lv
        all_goals try exact hs1
        all_goals cases rv
        all_goals exact hs2
      case FnCall sp calle args =>
        refine resOK_tee _ _ (ihE calle env s hs) ?_
        intro v s1 hv hs1
        cases v
        case procedure p =>
          (try dsimp only)
          split
          · exact hs1
          · have h1 := ihA args env s1 hs1
            rcases hA : evalArgs fuel args env s1 with ⟨exn | argv, s2⟩ | _ | _
            · rw [hA] at h1
              exact h1
            · rw [hA] at h1
              (try dsimp only)
              have h2 := ExnFree_allocEnv s2 ⟨some env, buildParamEntries p.params argv⟩
                h1.1 (entriesOK_buildParamEntries p.params argv h1.2)
              have h3 := ihS p.scope (allocEnv s2 ⟨some env, buildParamEntries p.params argv⟩).1
                (allocEnv s2 ⟨some env, buildParamEntries p.params argv⟩).2 h2
              rcases hsc : evalScope fuel p.scope
                  (allocEnv s2 ⟨some env, buildParamEntries p.params argv⟩).1
                  (allocEnv s2 ⟨some env, buildParamEntries p.params argv⟩).2 with ⟨w, s4⟩ | _ | _
              · rw [hsc] at h3
                cases w <;> exact h3
              · trivial
              · trivial
            · trivial
            · trivial
        case builtin bname =>
          (try dsimp only)
          have h1 := ihA args env s1 hs1
          rcases hA : evalArgs fuel args env s1 with ⟨exn | argv, s2⟩ | _ | _
          · rw [hA] at h1
            exact h1
          · rw [hA] at h1
            (try dsimp only)
            have h2 := builtinOK fuel bname argv s2 h1.1 h1.2
            rcases hCB : callBuiltin fuel bname argv s2 with ⟨w, s3⟩ | _ | _
            · rw [hCB] at h2
              cases w <;> exact h2
            · trivial
            · trivial
          · trivial
          · trivial
        all_goals exact hs1
    · intro es env s hs
      rcases es with _ | ⟨e, rest⟩
      · exact ⟨hs, fun v hv => absurd hv (List.not_mem_nil v)⟩
      · dsimp only [evalArgs]
        have h1 := ihE e env s hs
        rcases hev : evalExpr fuel e env s with ⟨v, s1⟩ | _ | _
        · rw [hev] at h1
          have step : ∀ (w : Value), w.isExn = false →
              argsOK (match evalArgs fuel rest env s1 with
                | Res.ok (Sum.inr vs) s2 => Res.ok (Sum.inr (w :: vs)) s2
                | r => r) := by
            intro w hw
            have h2 := ihA rest env s1 h1
            rcases hra : evalArgs fuel rest env s1 with ⟨exn | vs, s2⟩ | _ | _
            · rw [hra] at h2
              exact h2
            · rw [hra] at h2
              refine ⟨h2.1, ?_⟩
              intro u hu
              rcases List.mem_cons.mp hu with rfl | h3
              · exact hw
              · exact h2.2 u h3
            · trivial
            · trivial
          cases v
          case exception exn => exact h1
          all_goals exact step _ rfl
        · trivial
        · trivial
    · intro stmts env s hs
      rcases stmts with _ | ⟨stmt, rest⟩
      · exact hs
      · cases stmt
        case Expr e =>
          refine resOK_tee _ _ (ihE e env s hs) ?_
          intro v s1 hv hs1
          exact ihS rest env s1 hs1
        case VarAssign nsp name value =>
          refine resOK_tee _ _ (ihE value env s hs) ?_
          intro v s1 hv hs1
          exact ihS rest env (setVar s1 env name v) (ExnFree_setVar s1 env name v hs1 hv)
        case Procedure p =>
          exact ihS rest env _ (ExnFree_updateEnvEntries s env _ hs
            (fun es hes => entriesOK_insertEntry es p.nameStr (.procedure p) hes rfl))
        case Return st value => exact ihE value env s hs
        case IndexAssign root index value =>
          refine resOK_tee _ _ (ihE root env s hs) ?_
          intro rv s1 hrv hs1
          cases rv
          case array addr =>
            (try dsimp only)
            refine resOK_tee _ _ (ihE index env s1 hs1) ?_
            intro iv s2 hiv hs2
            cases iv
            case number idx =>
              (try dsimp only)
              cases hcb : canBorrowMut s2 addr
              · trivial
              · (try dsimp only)
                rcases harr : arrGet s2 addr with _ | items
                · trivial
                · show resOK (if usizeSub1 (ratToU32 idx) < items.length then
                      match evalExpr fuel value env (pushLock s2 addr true) with
                      | Res.ok (Value.exception e) s3 => Res.ok (Value.exception e) (popLock s3)
                      | Res.ok v s3 =>
                        (match arrGet s3 addr with
                         | some items2 => evalScope fuel rest env
                             (popLock (arrSet s3 addr (items2.set (usizeSub1 (ratToU32 idx)) v)))
                         | none => Res.crash)
                      | Res.crash => Res.crash
                      | Res.timeout => Res.timeout
                    else
                      failV ("index is out of bounds: the length is " ++ toString items.length ++
                        " but the index is " ++ ratDisplay idx)
                        (Stmt.IndexAssign root index value).span s2)
                  split
                  · have h3 := ihE value env (pushLock s2 addr true) hs2
                    have step : ∀ (w : Value) (s3 : VMState), w.isExn = false → ExnFree s3 →
                        resOK (match arrGet s3 addr with
                          | some items2 => evalScope fuel rest env
                              (popLock (arrSet s3 addr
                                (items2.set (usizeSub1 (ratToU32 idx)) w)))
                          | none => Res.crash) := by
                      intro w s3 hw hs3
                      rcases harr2 : arrGet s3 addr with _ | items2
                      · trivial
                      · refine ihS rest env _ (ExnFree_arrSet s3 addr _ hs3 ?_)
                        intro u hu
                        rcases List.mem_or_eq_of_mem_set hu with h | h
                        · exact hs3.2 items2 (List.getElem?_mem harr2) u h
                        · rw [h]
                          exact hw
                    rcases hev : evalExpr fuel value env (pushLock s2 addr true)
                        with ⟨v3, s3⟩ | _ | _
                    · rw [hev] at h3
                      cases v3
                      case exception e => exact h3
                      case void => exact step .void s3 rfl h3
                      case bool b2 => exact step (.bool b2) s3 rfl h3
                      case number q2 => exact step (.number q2) s3 rfl h3
                      case string str2 => exact step (.string str2) s3 rfl h3
                      case array a2 => exact step (.array a2) s3 rfl h3
                      case builtin b2 => exact step (.builtin b2) s3 rfl h3
                      case procedure p2 => exact step (.procedure p2) s3 rfl h3
                    · trivial
                    · trivial
                  · exact hs2
            all_goals exact hs2
          all_goals exact hs1
        case If cond scope elseIfs els =>
          refine resOK_tee _ _ (ihE cond env s hs) ?_
          intro cv s1 hcv hs1
          cases cv
          case bool b =>
            (try dsimp only)
            cases b
            · (try dsimp only)
              have h2 := ihEI elseIfs els env s1 hs1
              rcases hei : evalElseIfs fuel elseIfs els env s1 with ⟨ov, s2⟩ | _ | _
              · rw [hei] at h2
                cases ov
                · exact ihS rest env s2 h2
                · exact h2
              · trivial
              · trivial
            · refine resOK_tee _ _ (ihS scope env s1 hs1) ?_
              intro sv s2 hsv hs2
              cases sv
              case void => exact ihS rest env s2 hs2
              all_goals exact hs2
          all_goals exact hs1
        case RepeatN nexpr scope =>
          refine resOK_tee _ _ (ihE nexpr env s hs) ?_
          intro cv s1 hcv hs1
          cases cv
          case number n =>
            (try dsimp only)
            split
            · exact hs1
            · split
              · exact hs1
              · have h2 := ihRN (ratToU32 n) scope env s1 hs1
                rcases hrn : evalRepeatN fuel (ratToU32 n) scope env s1 with ⟨ov, s2⟩ | _ | _
                · rw [hrn] at h2
                  cases ov
                  · exact ihS rest env s2 h2
                  · exact h2
                · trivial
                · trivial
          all_goals exact hs1
        case RepeatUntil cond scope =>
          dsimp only [evalScope]
          have h2 := ihRU cond scope env s hs
          rcases hru : evalRepeatUntil fuel cond scope env s with ⟨ov, s1⟩ | _ | _
          · rw [hru] at h2
            cases ov
            · exact ihS rest env s1 h2
            · exact h2
          · trivial
          · trivial
        case For asp aliasStr arrayExpr scope =>
          refine resOK_tee _ _ (ihE arrayExpr env s hs) ?_
          intro av s1 hav hs1
          cases av
          case array addr =>
            (try dsimp only)
            cases hcb : canBorrow s1 addr
            · trivial
            · (try dsimp only)
              rcases harr : arrGet s1 addr with _ | items
              · trivial
              · (try dsimp only)
                have h2 := ihF addr aliasStr scope env 0 items.length s1 hs1
                rcases hf : evalFor fuel addr aliasStr scope env 0 items.length s1
                    with ⟨ov, s2⟩ | _ | _
                · rw [hf] at h2
                  cases ov
                  · exact ihS rest env s2 h2
                  · exact h2
                · trivial
                · trivial
          all_goals exact hs1
    · intro eis els env s hs
      rcases eis with _ | ⟨⟨cond, scope⟩, eis⟩
      · rcases els with _ | scope
        · exact hs
        · dsimp only [evalElseIfs]
          have h2 := ihS scope env s hs
          rcases hsc : evalScope fuel scope env s with ⟨v, s1⟩ | _ | _
          · rw [hsc] at h2
            cases v <;> exact h2
          · trivial
          · trivial
      · dsimp only [evalElseIfs]
        have h2 := ihE cond env s hs
        rcases hc : evalExpr fuel cond env s with ⟨v, s1⟩ | _ | _
        · rw [hc] at h2
          cases v
          case exception e => exact h2
          case bool b =>
            (try dsimp only)
            cases b
            · exact ihEI eis els env s1 h2
            · (try dsimp only)
              have h3 := ihS scope env s1 h2
              rcases hsc : evalScope fuel scope env s1 with ⟨w, s2⟩ | _ | _
              · rw [hsc] at h3
                cases w <;> exact h3
              · trivial
              · trivial
          all_goals trivial
        · trivial
        · trivial
    · intro n scope env s hs
      rcases n with _ | n
      · exact hs
      · dsimp only [evalRepeatN]
        have h2 := ihS scope env s hs
        rcases hsc : evalScope fuel scope env s with ⟨v, s1⟩ | _ | _
        · rw [hsc] at h2
          cases v
          case void => exact ihRN n scope env s1 h2
          all_goals exact h2
        · trivial
        · trivial
    · intro cond scope env s hs
      dsimp only [evalRepeatUntil]
      have h2 := ihE cond env s hs
      rcases hc : evalExpr fuel cond env s with ⟨v, s1⟩ | _ | _
      · rw [hc] at h2
        cases v
        case exception e => exact h2
        case bool b =>
          (try dsimp only)
          cases b
          · (try dsimp only)
            have h3 := ihS scope env s1 h2
            rcases hsc : evalScope fuel scope env s1 with ⟨w, s2⟩ | _ | _
            · rw [hsc] at h3
              cases w
              case void => exact ihRU cond scope env s2 h3
              all_goals exact h3
            · trivial
            · trivial
          · exact h2
        all_goals exact h2
      · trivial
      · trivial
    · intro addr al scope env i len s hs
      dsimp only [evalFor]
      split
      · exact hs
      · cases hcb : canBorrow s addr
        · trivial
        · (try dsimp only)
          rcases harr : arrGet s addr with _ | items
          · trivial
          · (try dsimp only)
            rcases hval : items[i]? with _ | val
            · exact hs
            · (try dsimp only)
              have hv : val.isExn = false :=
                hs.2 items (List.getElem?_mem harr) val (List.getElem?_mem hval)
              have hst : ExnFree (updateEnvEntries (pushLock s addr false) env
                  (fun es => insertEntry es al val)) :=
                ExnFree_updateEnvEntries _ env _ hs
                  (fun es hes => entriesOK_insertEntry es al val hes hv)
              have h2 := ihS scope env _ hst
              rcases hsc : evalScope fuel scope env (updateEnvEntries (pushLock s addr false) env
                  (fun es => insertEntry es al val)) with ⟨w, s2⟩ | _ | _
              · rw [hsc] at h2
                cases w
                case void => exact ihF addr al scope env (i+1) len (popLock s2) h2
                all_goals exact h2
              · trivial
              · trivial

theorem ExnFree_initState (stdin : List String) (rng : List Int) :
    ExnFree (initState stdin rng) := by
  refine ⟨?_, ?_⟩
  · intro eo heo
    rw [List.mem_singleton.mp heo]
    intro p hp
    fin_cases hp <;> rfl
  · intro items h
    exact absurd h (List.not_mem_nil items)

/-- C6: the stored-value invariant.  Starting from the initial state (or any
`ExnFree` state), every evaluation — whole programs from `main`'s initial
environment, any expression, any statement list, any argument list — yields
a state in which no environment entry and no array element is an `Exception`
value: exceptions are only ever transient return values (each store site
goes through `tee!`/argument checks first), and evaluated argument lists
never contain an exception. -/
theorem C6_no_stored_exceptions (fuel : Nat) (prog stmts : List Stmt) (args : List Expr)
    (stdin : List String) (rng : List Int) (e : Expr) (env : Nat) (s : VMState)
    (hs : ExnFree s) :
    resOK (evalScope fuel prog 0 (initState stdin rng)) ∧
    resOK (evalExpr fuel e env s) ∧
    resOK (evalScope fuel stmts env s) ∧
    argsOK (evalArgs fuel args env s) :=
  ⟨(evalOK fuel).2.2.1 prog 0 (initState stdin rng) (ExnFree_initState stdin rng),
   (evalOK fuel).1 e env s hs,
   (evalOK fuel).2.2.1 stmts env s hs,
   (evalOK fuel).2.1 args env s hs⟩

theorem C6_no_stored_exceptions_witness :
    ExnFree (initState [] []) ∧
    resOK (evalScope 5 [.VarAssign ⟨0,1⟩ "x" (.IntegerLiteral ⟨5,6⟩ 7)] 0 (initState [] [])) ∧
    resOK (evalExpr 5 (.IntegerLiteral ⟨0,1⟩ 1) 0 (initState [] [])) ∧
    argsOK (evalArgs 5 [] 0 (initState [] [])) := by
  refine ⟨ExnFree_initState [] [], ?_, ?_, ?_⟩
  · exact (C6_no_stored_exceptions 5 [.VarAssign ⟨0,1⟩ "x" (.IntegerLiteral ⟨5,6⟩ 7)] [] [] [] []
      (.IntegerLiteral ⟨0,1⟩ 1) 0 (initState [] []) (ExnFree_initState [] [])).1
  · exact (C6_no_stored_exceptions 5 [.VarAssign ⟨0,1⟩ "x" (.IntegerLiteral ⟨5,6⟩ 7)] [] [] [] []
      (.IntegerLiteral ⟨0,1⟩ 1) 0 (initState [] []) (ExnFree_initState [] [])).2.1
  · exact (C6_no_stored_exceptions 5 [.VarAssign ⟨0,1⟩ "x" (.IntegerLiteral ⟨5,6⟩ 7)] [] [] [] []
      (.IntegerLiteral ⟨0,1⟩ 1) 0 (initState [] []) (ExnFree_initState [] [])).2.2.2

end Aps
